import Mathlib

/-!
Shallow embedding of the clause-transformation layer of
`src/src/backend/parser/cypher_clause.c` (Apache AGE, `deem0n/incubator-age`).

The C code lowers Cypher clauses (MATCH / CREATE / SET / REMOVE / DELETE /
RETURN / WITH) into PostgreSQL `Query` structures.  The definitions below
translate, function by function, the parts of that file that the verified
claims are about:

* the join-tree synthesis for MATCH patterns
  (`make_path_join_quals`, `make_join_condition_for_edge`,
   `make_directed_edge_join_conditions`, `join_to_entity`,
   `make_edge_quals`, `prevent_duplicate_edges`, `transform_match_path`),
* variable re-use / conflict detection
  (`transform_cypher_node`, `transform_cypher_edge`),
* the CREATE mutation-plan builder
  (`transform_create_cypher_node`, `transform_create_cypher_existing_node`,
   `transform_create_cypher_new_node`, `transform_create_cypher_edge`,
   `transform_cypher_create_path`),
* the DELETE / SET / REMOVE reference resolvers
  (`transform_cypher_delete`, `transform_cypher_set`,
   `transform_cypher_delete_item_list`, `transform_cypher_set_item_list`,
   `transform_cypher_remove_item_list`),
* the SKIP/LIMIT compiler (`transform_cypher_limit`).

PostgreSQL parse/expression nodes are modelled by small inductive types that
keep exactly the structure those functions inspect or construct.  Stateful
parser fields (`p_rtable`, target lists, the entity registry
`cpstate->entities`, `p_next_resno`, the default-alias counter) are threaded
through an explicit `PState` record.
-/

namespace Age

/-- `enum transform_entity_type` of cypher_clause.c. -/
inductive EntKind where
  | vertex
  | edge
deriving DecidableEq, Repr

/-- `LABEL_KIND_VERTEX` / `LABEL_KIND_EDGE` from the label catalog. -/
inductive LabelKind where
  | vertex
  | edge
deriving DecidableEq, Repr

/-- `CYPHER_REL_DIR_LEFT / _RIGHT / _NONE` (edge direction in a pattern). -/
inductive Dir where
  | left
  | right
  | none_
deriving DecidableEq, Repr

/-- `enum transform_entity_join_side`. -/
inductive JoinSide where
  | left
  | right
deriving DecidableEq, Repr

/-- The four column names of a vertex/edge label relation that the code
accesses: `AG_EDGE_COLNAME_ID / _START_ID / _END_ID / _PROPERTIES`. -/
inductive Col where
  | id
  | start_id
  | end_id
  | properties
deriving DecidableEq, Repr

/-- `AG_DEFAULT_LABEL_VERTEX` (from the ag_label catalog headers). -/
def AG_DEFAULT_LABEL_VERTEX : String := "_ag_label_vertex"

/-- `AG_DEFAULT_LABEL_EDGE` (from the ag_label catalog headers). -/
def AG_DEFAULT_LABEL_EDGE : String := "_ag_label_edge"

/-- Property-constraint / property-map parse node (`node->props`,
`rel->props`).  The CREATE path only distinguishes a `cypher_param` (which is
rejected) from an ordinary map expression. -/
inductive CProp where
  | param
  | mapLit
deriving DecidableEq, Repr

/-- Scalar/relational expression nodes that the transformed clauses build.
This is the image of the PostgreSQL `Expr` nodes the file constructs:
`Var` references to a prior column, the `_agtype_build_vertex` /
`_agtype_build_edge` function expressions, the `agtype_volatile_wrapper`
call, `Const` nulls, `_agtype_build_path`, relation column defaults
(`build_column_default`), the serialized-plan `FuncExpr`, and the literal /
arithmetic / int8-coercion shapes that SKIP/LIMIT expressions take. -/
inductive MExpr where
  | varRef (name : String)
  | vertexE (aliasName label : String)
  | edgeE (aliasName label : String)
  | volatileW (e : MExpr)
  | nullC
  | buildPath (args : List (Option MExpr))
  | columnDefault (label : String) (col : Col)
  | planFn (fnName : String)
  | propMapE
  | litInt (n : Int)
  | addE (a b : MExpr)
  | coerceInt8 (e : MExpr)

/-- A `TargetEntry`: output column of a transformed clause (resname may be
NULL in PostgreSQL; the hidden SET value column has no name). -/
structure MTarget where
  resname : Option String
  resno : Nat
  expr : MExpr

/-- A `transform_entity` as used by the join-synthesis phase: its kind, the
(post-defaulting) variable name and label of the underlying parse node, the
edge direction, and the `Expr` it was transformed into.  As in
`make_transform_entity`, membership in the join tree is exactly
`expr != NULL`. -/
structure TEntity where
  kind : EntKind
  name : String
  label : String
  dir : Dir
  expr : Option MExpr

/-- `entity->in_join_tree` (set to `expr != NULL` in
`make_transform_entity`). -/
def TEntity.in_join_tree (e : TEntity) : Bool := e.expr.isSome

/-- The access produced by `make_qual`: a reference to one id-column of one
pattern entity (either through a ColumnRef on the entity's relation alias or
through the agtype accessor function applied to the entity's variable; both
denote the same column of the same entity). -/
structure QualAtom where
  ent : String
  col : Col
deriving DecidableEq, Repr

/-- The qualifier (WHERE-fragment) nodes the join synthesis constructs:
`=` A_Exprs, `IN` A_Exprs, the `_extract_label_id(...) = n` label filter,
AND/OR BoolExprs, and the `_ag_enforce_edge_uniqueness` FuncCall. -/
inductive Qual where
  | eq (l r : QualAtom)
  | inList (l : QualAtom) (rs : List QualAtom)
  | labelFilter (l : QualAtom) (labelName : String)
  | andE (qs : List Qual)
  | orE (qs : List Qual)
  | dupEdges (ids : List QualAtom)

/-- `make_qual` for our purposes: the `col` field of entity `e`. -/
def make_qual (e : TEntity) (col : Col) : QualAtom := ⟨e.name, col⟩

/-- `make_edge_quals`: the id-columns a neighbouring edge exposes on the
given join side, depending on its direction. -/
def make_edge_quals (edge : TEntity) (side : JoinSide) : List QualAtom :=
  let left_dir : Col := match side with
    | .left => .start_id
    | .right => .end_id
  let right_dir : Col := match side with
    | .left => .end_id
    | .right => .start_id
  match edge.dir with
  | .left => [make_qual edge left_dir]
  | .right => [make_qual edge right_dir]
  | .none_ => [make_qual edge left_dir, make_qual edge right_dir]

/-- `join_to_entity`: join the current edge (through column access `qual`)
to the neighbouring entity.  A vertex joins on its `id` column; an edge
joins on the column(s) given by `make_edge_quals` (an `IN` expression when
the neighbour is undirected). -/
def join_to_entity (entity : TEntity) (qual : QualAtom) (side : JoinSide) :
    List Qual :=
  match entity.kind with
  | .vertex => [Qual.eq qual (make_qual entity .id)]
  | .edge =>
    let edge_quals := make_edge_quals entity side
    match edge_quals with
    | [q] => [Qual.eq qual q]
    | qs => [Qual.inList qual qs]

/-- `filter_vertices_on_label_id`: label filter on an edge endpoint column
(the catalog lookup of the label id is kept symbolic: the filter records the
label name it was built from). -/
def filter_vertices_on_label_id (id_field : QualAtom) (label : String) :
    Qual :=
  Qual.labelFilter id_field label

/-- `make_directed_edge_join_conditions`: join the previous entity via
`prev_qual` and the next entity via `next_qual` (each only when it is in the
join tree), then add label filters for excluded endpoints whose label is not
the default vertex label. -/
def make_directed_edge_join_conditions (prev_entity next_entity : TEntity)
    (prev_qual next_qual : QualAtom)
    (prev_node_filter next_node_filter : Option String) : List Qual :=
  (if prev_entity.in_join_tree then
      join_to_entity prev_entity prev_qual .left
    else []) ++
  (if next_entity.in_join_tree then
      join_to_entity next_entity next_qual .right
    else []) ++
  (match prev_node_filter with
   | some l =>
     if l ≠ AG_DEFAULT_LABEL_VERTEX then [filter_vertices_on_label_id prev_qual l]
     else []
   | none => []) ++
  (match next_node_filter with
   | some l =>
     if l ≠ AG_DEFAULT_LABEL_VERTEX then [filter_vertices_on_label_id next_qual l]
     else []
   | none => [])

/-- `make_join_condition_for_edge`, for the sliding window
`[prev_edge]-(prev_node)-[entity]-(next_node)-[next_edge]`.
`prev_edge` / `next_edge` may be absent; the two nodes are always present.
Note that in the directed cases the source passes `next_node` (not the
computed `next_entity`) as the entity joined on the next side, exactly as
the C code does. -/
def make_join_condition_for_edge (prev_edge : Option TEntity)
    (prev_node entity next_node : TEntity) (next_edge : Option TEntity) :
    List Qual :=
  let prev_label_name_to_filter : Option String :=
    if ¬ prev_node.in_join_tree then some prev_node.label else none
  let next_label_name_to_filter : Option String :=
    if ¬ next_node.in_join_tree ∧ next_edge.isNone then some next_node.label
    else none
  let prev_entity : TEntity :=
    if ¬ prev_node.in_join_tree ∧ prev_edge.isSome then
      prev_edge.getD prev_node
    else prev_node
  let next_entity : TEntity :=
    if ¬ next_node.in_join_tree ∧ next_edge.isSome then
      next_edge.getD next_node
    else next_node
  match entity.dir with
  | .right =>
    let prev_qual := make_qual entity .start_id
    let next_qual := make_qual entity .end_id
    make_directed_edge_join_conditions prev_entity next_node prev_qual
      next_qual prev_label_name_to_filter next_label_name_to_filter
  | .left =>
    let prev_qual := make_qual entity .end_id
    let next_qual := make_qual entity .start_id
    make_directed_edge_join_conditions prev_entity next_node prev_qual
      next_qual prev_label_name_to_filter next_label_name_to_filter
  | .none_ =>
    let start_id_expr := make_qual entity .start_id
    let end_id_expr := make_qual entity .end_id
    let first_join_quals := make_directed_edge_join_conditions prev_entity
      next_entity start_id_expr end_id_expr prev_label_name_to_filter
      next_label_name_to_filter
    let second_join_quals := make_directed_edge_join_conditions prev_entity
      next_entity end_id_expr start_id_expr prev_label_name_to_filter
      next_label_name_to_filter
    [Qual.orE [Qual.andE first_join_quals, Qual.andE second_join_quals]]

/-- The loop body of `make_path_join_quals`: `prev_edge` is the edge handled
in the previous iteration, `prev_node` the vertex before `edge`, and `rest`
the entities after `edge`.  A well-formed alternating path always has a
vertex after each edge; the (unreachable in the C code, which would
dereference NULL) case of a trailing edge yields no quals. -/
def make_path_join_quals_go (prev_edge : Option TEntity)
    (prev_node edge : TEntity) : List TEntity → List Qual
  | [] => []
  | [next_node] =>
    make_join_condition_for_edge prev_edge prev_node edge next_node none
  | next_node :: next_edge :: rest =>
    make_join_condition_for_edge prev_edge prev_node edge next_node
      (some next_edge) ++
    make_path_join_quals_go (some edge) next_node next_edge rest

/-- `make_path_join_quals`: vertex-only paths (fewer than 3 entities)
produce no join quals; otherwise walk the path edge by edge. -/
def make_path_join_quals (entities : List TEntity) : List Qual :=
  match entities with
  | prev_node :: edge :: next_node :: rest =>
    make_path_join_quals_go none prev_node edge (next_node :: rest)
  | _ => []

/-- `prevent_duplicate_edges`: the `_ag_enforce_edge_uniqueness` FuncCall
over the id access of every edge entity of the path. -/
def prevent_duplicate_edges (entities : List TEntity) : Qual :=
  Qual.dupEdges
    ((entities.filter (fun e => e.kind = EntKind.edge)).map
      (fun e => make_qual e .id))

/-- The qualifier list built by `transform_match_path` for one path: the
join quals, plus the edge-uniqueness qual when the path has more than 3
entities (i.e. at least 2 edges). -/
def transform_match_path_quals (entities : List TEntity) : List Qual :=
  let qual := make_path_join_quals entities
  if 3 < entities.length then qual ++ [prevent_duplicate_edges entities]
  else qual

mutual

/-- Truth of a qualifier under a valuation `σ` of column accesses to graphid
values and `lab` giving the label name a column access resolves to.  `=` and
`IN` are PostgreSQL equality, AND/OR are conjunction/disjunction over the
argument lists, and `_ag_enforce_edge_uniqueness` asserts its arguments
pairwise distinct. -/
def evalQual (σ : QualAtom → Int) (lab : QualAtom → String) : Qual → Prop
  | .eq l r => σ l = σ r
  | .inList l rs => σ l ∈ rs.map σ
  | .labelFilter l s => lab l = s
  | .andE qs => evalQualConj σ lab qs
  | .orE qs => evalQualDisj σ lab qs
  | .dupEdges ids => (ids.map σ).Pairwise (fun a b => a ≠ b)

/-- Conjunction of a qualifier list (the implicit AND of a qual list). -/
def evalQualConj (σ : QualAtom → Int) (lab : QualAtom → String) :
    List Qual → Prop
  | [] => True
  | q :: qs => evalQual σ lab q ∧ evalQualConj σ lab qs

/-- Disjunction of a qualifier list (an OR BoolExpr argument list). -/
def evalQualDisj (σ : QualAtom → Int) (lab : QualAtom → String) :
    List Qual → Prop
  | [] => False
  | q :: qs => evalQual σ lab q ∨ evalQualDisj σ lab qs

end

/-- Whether a qualifier node is a plain `=` equality between two column
accesses (in particular it is not an OR). -/
def Qual.isEqQ : Qual → Bool
  | .eq _ _ => true
  | _ => false

/-- Data for a MATCH path `(v 0)-[e 1]->(v 1)-[e 2]-> ... ->(v k)` whose
edges are all RIGHT-directed and whose vertices are all included in the join
tree: names, labels and transformed expressions for the vertices and edges
(all arbitrary). -/
structure RightPathData where
  vn : Nat → String
  vl : Nat → String
  ve : Nat → MExpr
  en : Nat → String
  el : Nat → String
  ee : Nat → MExpr

/-- The i-th vertex entity of a `RightPathData` (in the join tree: its
transformed expression is present). -/
def RightPathData.vert (d : RightPathData) (i : Nat) : TEntity :=
  ⟨.vertex, d.vn i, d.vl i, .right, some (d.ve i)⟩

/-- The i-th edge entity of a `RightPathData` (direction RIGHT). -/
def RightPathData.edgeE (d : RightPathData) (i : Nat) : TEntity :=
  ⟨.edge, d.en i, d.el i, .right, some (d.ee i)⟩

/-- The entity list `[e i, v i, e (i+1), v (i+1), ...]` holding the `k`
edge/vertex pairs starting at index `i`. -/
def RightPathData.tail (d : RightPathData) : Nat → Nat → List TEntity
  | _, 0 => []
  | i, k+1 => d.edgeE i :: d.vert i :: d.tail (i+1) k

/-- The full entity list of the `k`-edge all-RIGHT path, as produced by
`transform_match_entities`. -/
def RightPathData.entities (d : RightPathData) (k : Nat) : List TEntity :=
  d.vert 0 :: d.tail 1 k

theorem rightPath_go_spec (d : RightPathData) : ∀ (k i j : Nat)
    (pe : Option TEntity),
    (make_path_join_quals_go pe (d.vert j) (d.edgeE i)
        (d.vert i :: d.tail (i+1) k)).length = 2 * (k+1) ∧
    ∀ q ∈ make_path_join_quals_go pe (d.vert j) (d.edgeE i)
        (d.vert i :: d.tail (i+1) k), q.isEqQ := by
  intro k
  induction k with
  | zero =>
    intro i j pe
    simp [RightPathData.tail, make_path_join_quals_go,
      make_join_condition_for_edge, make_directed_edge_join_conditions,
      join_to_entity, make_qual, TEntity.in_join_tree, RightPathData.vert,
      RightPathData.edgeE, Qual.isEqQ]
  | succ m ih =>
    intro i j pe
    have h := ih (i+1) i (some (d.edgeE i))
    simp only [RightPathData.tail, make_path_join_quals_go]
    constructor
    · simp only [List.length_append]
      rw [h.1]
      simp [make_join_condition_for_edge, make_directed_edge_join_conditions,
        join_to_entity, make_qual, TEntity.in_join_tree, RightPathData.vert,
        RightPathData.edgeE]
      ring
    · intro q hq
      rcases List.mem_append.mp hq with hq | hq
      · revert hq
        simp [make_join_condition_for_edge,
          make_directed_edge_join_conditions, join_to_entity, make_qual,
          TEntity.in_join_tree, RightPathData.vert, RightPathData.edgeE,
          Qual.isEqQ]
        rintro (rfl | rfl) <;> rfl
      · exact h.2 q hq

/-- Vertex data of a generic MATCH path: name, label, and the transformed
expression (`none` exactly when the vertex is excluded from the join
tree). -/
structure VSpec where
  name : String
  label : String
  expr : Option MExpr

/-- Edge data of a generic MATCH path. -/
structure ESpec where
  name : String
  label : String
  dir : Dir
  expr : Option MExpr

/-- The `transform_entity` of a vertex (a `cypher_node` has no direction
field; the `dir` component of the entity is never read for vertices, so an
arbitrary value is stored). -/
def VSpec.ent (v : VSpec) : TEntity :=
  ⟨.vertex, v.name, v.label, .right, v.expr⟩

/-- The `transform_entity` of an edge. -/
def ESpec.ent (e : ESpec) : TEntity :=
  ⟨.edge, e.name, e.label, e.dir, e.expr⟩

/-- The edge/vertex entity pairs following the first vertex of a path. -/
def pathTailEntities : List (ESpec × VSpec) → List TEntity
  | [] => []
  | p :: rest => p.1.ent :: p.2.ent :: pathTailEntities rest

/-- The entity list of an alternating MATCH path `v0, e1, v1, e2, v2, ...`
(as built by `transform_match_entities`): the first vertex followed by one
edge/vertex pair per hop. -/
def pathEntities (v0 : VSpec) (rest : List (ESpec × VSpec)) : List TEntity :=
  v0.ent :: pathTailEntities rest

theorem pathTailEntities_length (rest : List (ESpec × VSpec)) :
    (pathTailEntities rest).length = 2 * rest.length := by
  induction rest with
  | nil => rfl
  | cons p rest ih => simp [pathTailEntities, ih]; omega

theorem pathTailEntities_filter_edges (rest : List (ESpec × VSpec)) :
    ((pathTailEntities rest).filter (fun e => e.kind = EntKind.edge)).map
        (fun e => make_qual e .id) =
      rest.map (fun p => QualAtom.mk p.1.name Col.id) := by
  induction rest with
  | nil => rfl
  | cons p rest ih =>
    simp only [pathTailEntities, List.filter, ESpec.ent, VSpec.ent]
    simpa [make_qual] using ih

theorem prevent_duplicate_edges_pathEntities (v0 : VSpec)
    (rest : List (ESpec × VSpec)) :
    prevent_duplicate_edges (pathEntities v0 rest) =
      Qual.dupEdges (rest.map (fun p => QualAtom.mk p.1.name Col.id)) := by
  unfold prevent_duplicate_edges pathEntities
  simp only [List.filter, VSpec.ent]
  rw [show (decide (EntKind.vertex = EntKind.edge)) = false from rfl]
  simp only [pathTailEntities_filter_edges]

/-- C1.  For a single undirected edge `(A)-[e]-(B)` with both endpoint
vertices in the join tree, the adjacency predicate generated by
`make_join_condition_for_edge` (direction `CYPHER_REL_DIR_NONE`) is one OR
of exactly two AND conjunctions, one per orientation — semantically
`(A.id = e.start_id ∧ B.id = e.end_id) ∨ (A.id = e.end_id ∧ B.id =
e.start_id)` — and both orientations are always enumerated. -/
theorem claim_C1_undirected_edge_enumerates_both_orientations
    (na la nb lb ne le : String) (da db : Dir) (ea eb ee : MExpr)
    (σ : QualAtom → Int) (lab : QualAtom → String) :
    make_path_join_quals
        [⟨.vertex, na, la, da, some ea⟩,
         ⟨.edge, ne, le, .none_, some ee⟩,
         ⟨.vertex, nb, lb, db, some eb⟩] =
      [Qual.orE
        [Qual.andE [Qual.eq ⟨ne, .start_id⟩ ⟨na, .id⟩,
                    Qual.eq ⟨ne, .end_id⟩ ⟨nb, .id⟩],
         Qual.andE [Qual.eq ⟨ne, .end_id⟩ ⟨na, .id⟩,
                    Qual.eq ⟨ne, .start_id⟩ ⟨nb, .id⟩]]] ∧
    (evalQualConj σ lab
        (make_path_join_quals
          [⟨.vertex, na, la, da, some ea⟩,
           ⟨.edge, ne, le, .none_, some ee⟩,
           ⟨.vertex, nb, lb, db, some eb⟩]) ↔
      ((σ ⟨na, .id⟩ = σ ⟨ne, .start_id⟩ ∧ σ ⟨nb, .id⟩ = σ ⟨ne, .end_id⟩) ∨
       (σ ⟨na, .id⟩ = σ ⟨ne, .end_id⟩ ∧ σ ⟨nb, .id⟩ = σ ⟨ne, .start_id⟩))) := by
  have hq : make_path_join_quals
        [⟨.vertex, na, la, da, some ea⟩,
         ⟨.edge, ne, le, .none_, some ee⟩,
         ⟨.vertex, nb, lb, db, some eb⟩] =
      [Qual.orE
        [Qual.andE [Qual.eq ⟨ne, .start_id⟩ ⟨na, .id⟩,
                    Qual.eq ⟨ne, .end_id⟩ ⟨nb, .id⟩],
         Qual.andE [Qual.eq ⟨ne, .end_id⟩ ⟨na, .id⟩,
                    Qual.eq ⟨ne, .start_id⟩ ⟨nb, .id⟩]]] := by
    simp [make_path_join_quals, make_path_join_quals_go,
      make_join_condition_for_edge, make_directed_edge_join_conditions,
      join_to_entity, make_qual, TEntity.in_join_tree]
  refine ⟨hq, ?_⟩
  rw [hq]
  simp only [evalQualConj, evalQual, evalQualDisj, and_true, or_false]
  constructor
  · rintro (⟨h1, h2⟩ | ⟨h1, h2⟩)
    · exact Or.inl ⟨h1.symm, h2.symm⟩
    · exact Or.inr ⟨h1.symm, h2.symm⟩
  · rintro (⟨h1, h2⟩ | ⟨h1, h2⟩)
    · exact Or.inl ⟨h1.symm, h2.symm⟩
    · exact Or.inr ⟨h1.symm, h2.symm⟩

/-- C2 counterexample.  The claim asserts that a path with `k` edges, all
direction RIGHT and all vertices in the join tree, yields a conjunction of
exactly `k + 1` equalities.  For the concrete 2-edge path
`(v0)-[e1]->(v1)-[e2]->(v2)` the code generates 4 equalities (each edge is
joined to both of its endpoint vertices), not `2 + 1 = 3`. -/
theorem claim_C2_counterexample :
    (make_path_join_quals
      [⟨.vertex, "v0", "_ag_label_vertex", .right, some (.vertexE "v0" "_ag_label_vertex")⟩,
       ⟨.edge, "e1", "_ag_label_edge", .right, some (.edgeE "e1" "_ag_label_edge")⟩,
       ⟨.vertex, "v1", "_ag_label_vertex", .right, some (.vertexE "v1" "_ag_label_vertex")⟩,
       ⟨.edge, "e2", "_ag_label_edge", .right, some (.edgeE "e2" "_ag_label_edge")⟩,
       ⟨.vertex, "v2", "_ag_label_vertex", .right, some (.vertexE "v2" "_ag_label_vertex")⟩]).length
      = 4 ∧
    ¬ ((make_path_join_quals
      [⟨.vertex, "v0", "_ag_label_vertex", .right, some (.vertexE "v0" "_ag_label_vertex")⟩,
       ⟨.edge, "e1", "_ag_label_edge", .right, some (.edgeE "e1" "_ag_label_edge")⟩,
       ⟨.vertex, "v1", "_ag_label_vertex", .right, some (.vertexE "v1" "_ag_label_vertex")⟩,
       ⟨.edge, "e2", "_ag_label_edge", .right, some (.edgeE "e2" "_ag_label_edge")⟩,
       ⟨.vertex, "v2", "_ag_label_vertex", .right, some (.vertexE "v2" "_ag_label_vertex")⟩]).length
      = 2 + 1) := by
  constructor
  · rfl
  · intro h
    exact absurd h (by decide)

/-- C2 (amended).  For a path with `k` edges, all direction RIGHT and all
vertices in the join tree, the generated join predicate is a pure
conjunction of exactly `2 * k` equalities (each edge joined to both
endpoint vertices) and contains no disjunction: every generated qualifier
is a plain `=` between an edge endpoint column and a vertex id column. -/
theorem claim_C2_all_right_path_pure_conjunction (d : RightPathData)
    (k : Nat) :
    (make_path_join_quals (d.entities k)).length = 2 * k ∧
    ∀ q ∈ make_path_join_quals (d.entities k), q.isEqQ := by
  cases k with
  | zero =>
    simp [RightPathData.entities, RightPathData.tail, make_path_join_quals]
  | succ m =>
    have h := rightPath_go_spec d m 1 0 none
    simp only [RightPathData.entities, RightPathData.tail,
      make_path_join_quals]
    exact ⟨h.1, h.2⟩

/-- A concrete 2-edge all-RIGHT path datum. -/
def rpd0 : RightPathData :=
  { vn := fun _ => "v"
    vl := fun _ => "L"
    ve := fun _ => .nullC
    en := fun _ => "e"
    el := fun _ => "T"
    ee := fun _ => .nullC }

theorem claim_C2_all_right_path_witness :
    (make_path_join_quals (rpd0.entities 2)).length = 2 * 2 ∧
    (Qual.eq ⟨"e", .start_id⟩ ⟨"v", .id⟩).isEqQ := by
  have h := claim_C2_all_right_path_pure_conjunction rpd0 2
  refine ⟨h.1, h.2 (Qual.eq ⟨"e", .start_id⟩ ⟨"v", .id⟩) ?_⟩
  rw [show make_path_join_quals (rpd0.entities 2) =
    [Qual.eq ⟨"e", .start_id⟩ ⟨"v", .id⟩,
     Qual.eq ⟨"e", .end_id⟩ ⟨"v", .id⟩,
     Qual.eq ⟨"e", .start_id⟩ ⟨"v", .id⟩,
     Qual.eq ⟨"e", .end_id⟩ ⟨"v", .id⟩] from rfl]
  exact List.mem_cons_self _ _

/-- C3.  The `_ag_enforce_edge_uniqueness` qualifier, covering the identity
column access of every edge of the path (in pattern order), is appended to
the path qualifier list exactly when the path has at least 2 edges; paths
with 0 or 1 edges get only their join qualifiers. -/
theorem claim_C3_duplicate_edge_qual_iff_two_edges (v0 : VSpec)
    (rest : List (ESpec × VSpec)) :
    transform_match_path_quals (pathEntities v0 rest) =
      make_path_join_quals (pathEntities v0 rest) ++
        (if 2 ≤ rest.length then
          [Qual.dupEdges (rest.map (fun p => QualAtom.mk p.1.name Col.id))]
        else []) := by
  unfold transform_match_path_quals
  have hlen : (pathEntities v0 rest).length = 2 * rest.length + 1 := by
    simp [pathEntities, pathTailEntities_length]
  rw [hlen]
  rcases le_or_lt 2 rest.length with h | h
  · rw [if_pos (by omega), if_pos h, prevent_duplicate_edges_pathEntities]
  · rw [if_neg (by omega), if_neg (by omega), List.append_nil]

/-- Structured diagnostics raised by `ereport(ERROR, ...)`, keyed by the
errcode the C code passes: `ERRCODE_FEATURE_NOT_SUPPORTED`,
`ERRCODE_INVALID_COLUMN_REFERENCE`, or `errmsg_internal`. -/
inductive AgeErr where
  | featureNotSupported (msg : String)
  | invalidColumnRef (msg : String)
  | internalErr (msg : String)
deriving DecidableEq, Repr

/-- A registry entry of `cpstate->entities`: the fields of
`transform_entity` that the variable-reuse logic reads (`type`, the parse
node's name, `declared_in_current_clause`). -/
structure REntity where
  kind : EntKind
  name : Option String
  declaredInCurrentClause : Bool
deriving DecidableEq, Repr

/-- The parser state threaded through the clause transforms: the clause
target list, the range table (relation aliases added so far — one entry per
relation scan/join), the entity registry `cpstate->entities`, the column
names of the previous clause made visible by
`transform_prev_cypher_clause` (what `colNameToVar` can resolve), the label
catalog, `p_next_resno`, the default-alias counter, and whether the
transform runs inside a WHERE (`p_expr_kind == EXPR_KIND_WHERE`). -/
structure PState where
  targetList : List MTarget
  rtable : List String
  entities : List REntity
  scope : List String
  catalog : List (String × LabelKind)
  nextResno : Nat
  nextAlias : Nat
  inWhere : Bool

/-- `findTarget`: first target entry with the given resname (the model's
target lists carry no resjunk entries). -/
def findTarget : List MTarget → String → Option MTarget
  | [], _ => none
  | te :: rest, name =>
    if te.resname = some name then some te else findTarget rest name

/-- `colNameToVar`: resolve a name against the columns of the previous
clause (made visible in the parse state); yields a `Var` reference. -/
def colNameToVar (st : PState) (name : String) : Option MExpr :=
  if name ∈ st.scope then some (.varRef name) else none

/-- `find_variable`: first registry entity carrying the given name. -/
def find_variable : List REntity → String → Option REntity
  | [], _ => none
  | e :: rest, name =>
    if e.name = some name then some e else find_variable rest name

/-- `search_label_name_graph_cache`: look a label name up in the catalog. -/
def lookupLabel : List (String × LabelKind) → String → Option LabelKind
  | [], _ => none
  | p :: rest, l => if p.1 = l then some p.2 else lookupLabel rest l

/-- `AGE_DEFAULT_ALIAS_PREFIX` (from the parse-node headers). -/
def AGE_DEFAULT_ALIAS_BASE : String := "_age_default_alias_"

/-- `get_next_default_alias`: generated alias plus the bumped counter. -/
def get_next_default_alias (st : PState) : String × PState :=
  (AGE_DEFAULT_ALIAS_BASE ++ toString st.nextAlias,
   { st with nextAlias := st.nextAlias + 1 })

/-- A `cypher_node` parse node (vertex pattern element). -/
structure CypherNodeP where
  name : Option String
  label : Option String
  props : Option CProp

/-- A `cypher_relationship` parse node (edge pattern element). -/
structure CypherRelP where
  name : Option String
  label : Option String
  props : Option CProp
  dir : Dir
  varlen : Bool

/-- The label-defaulting/validation prelude of `transform_cypher_node`:
a missing label becomes `AG_DEFAULT_LABEL_VERTEX`; an explicit label must
exist in the catalog and be a vertex label. -/
def validate_node_label (st : PState) (node : CypherNodeP) :
    Except AgeErr String :=
  match node.label with
  | none => .ok AG_DEFAULT_LABEL_VERTEX
  | some l =>
    match lookupLabel st.catalog l with
    | none => .error (.featureNotSupported ("label " ++ l ++ " does not exists"))
    | some k =>
      if k = LabelKind.vertex then .ok l
      else .error (.featureNotSupported
        ("label " ++ l ++ " is for edges, not vertices"))

/-- The label-defaulting/validation prelude of `transform_cypher_edge`. -/
def validate_edge_label (st : PState) (rel : CypherRelP) :
    Except AgeErr String :=
  match rel.label with
  | none => .ok AG_DEFAULT_LABEL_EDGE
  | some l =>
    match lookupLabel st.catalog l with
    | none => .error (.featureNotSupported ("label " ++ l ++ " does not exists"))
    | some k =>
      if k = LabelKind.edge then .ok l
      else .error (.featureNotSupported
        ("label " ++ l ++ " is for vertices, not edges"))

/-- The relation-creating tail of `transform_cypher_node`: add a range
table entry for the vertex label relation aliased by the variable name,
build the `_agtype_build_vertex` expression over it, and append the output
column. -/
def transform_cypher_node_new (st : PState) (name label : String) :
    Except AgeErr (Option MExpr × PState) :=
  let expr := MExpr.vertexE name label
  .ok (some expr,
    { st with
        rtable := st.rtable ++ [name]
        targetList := st.targetList ++ [⟨some name, st.nextResno, expr⟩]
        nextResno := st.nextResno + 1 })

/-- `transform_cypher_node` for a MATCH pattern vertex (`output_node` is
`INCLUDE_NODE_IN_JOIN_TREE(path, node)`).  An existing name is resolved —
in this order — against the previous clause's columns (returned as-is), then
against the clause target list, where a registry entity of different kind,
non-default label, or attached property constraints is a conflict; otherwise
a new relation scan is added. -/
def transform_cypher_node (st : PState) (node : CypherNodeP)
    (output_node : Bool) : Except AgeErr (Option MExpr × PState) :=
  match validate_node_label st node with
  | .error e => .error e
  | .ok label =>
    if ¬ output_node then .ok (none, st)
    else
      match node.name with
      | some name =>
        (match colNameToVar st name with
         | some e => .ok (some e, st)
         | none =>
           match findTarget st.targetList name with
           | some te =>
             (match find_variable st.entities name with
              | some ent =>
                if ent.kind ≠ EntKind.vertex ∨ label ≠ AG_DEFAULT_LABEL_VERTEX
                    ∨ node.props.isSome then
                  .error (.featureNotSupported
                    ("variable " ++ name ++ " already exists"))
                else .ok (some te.expr, st)
              | none => .ok (some te.expr, st))
           | none =>
             if st.inWhere then
               .error (.featureNotSupported
                 ("variable `" ++ name ++ "` does not exist"))
             else transform_cypher_node_new st name label)
      | none =>
        let (aliasName, st1) := get_next_default_alias st
        transform_cypher_node_new st1 aliasName label

/-- The relation-creating tail of `transform_cypher_edge`. -/
def transform_cypher_edge_new (st : PState) (name label : String) :
    Except AgeErr (MExpr × PState) :=
  let expr := MExpr.edgeE name label
  .ok (expr,
    { st with
        rtable := st.rtable ++ [name]
        targetList := st.targetList ++ [⟨some name, st.nextResno, expr⟩]
        nextResno := st.nextResno + 1 })

/-- `transform_cypher_edge` for a MATCH pattern edge: variable-length edges
are unsupported; otherwise the same name-resolution/conflict logic as for
vertices, with edge kind and the default edge label. -/
def transform_cypher_edge (st : PState) (rel : CypherRelP) :
    Except AgeErr (MExpr × PState) :=
  if rel.varlen then
    .error (.featureNotSupported
      "variable length relationships are not supported")
  else
    match validate_edge_label st rel with
    | .error e => .error e
    | .ok label =>
      match rel.name with
      | some name =>
        (match colNameToVar st name with
         | some e => .ok (e, st)
         | none =>
           match findTarget st.targetList name with
           | some te =>
             (match find_variable st.entities name with
              | some ent =>
                if ent.kind ≠ EntKind.edge ∨ label ≠ AG_DEFAULT_LABEL_EDGE
                    ∨ rel.props.isSome then
                  .error (.featureNotSupported
                    ("variable " ++ name ++ " already exists"))
                else .ok (te.expr, st)
              | none => .ok (te.expr, st))
           | none =>
             if st.inWhere then
               .error (.featureNotSupported
                 ("variable " ++ name ++ " does not exist"))
             else transform_cypher_edge_new st name label)
      | none =>
        let (aliasName, st1) := get_next_default_alias st
        transform_cypher_edge_new st1 aliasName label

/-- A parser state in which variable `x` was bound by the previous clause:
its column is in the current target list (via `expandRelAttrs`), it is
visible to `colNameToVar`, and its entity was merged into the registry by
`analyze_cypher_clause`.  Label `Person` exists as a vertex label. -/
def stPrevBound : PState :=
  { targetList := [⟨some "x", 1, .varRef "x"⟩]
    rtable := ["_"]
    entities := [⟨.vertex, some "x", false⟩]
    scope := ["x"]
    catalog := [("Person", .vertex)]
    nextResno := 2
    nextAlias := 0
    inWhere := false }

/-- C4 counterexample.  The claim asserts that re-referencing a bound
variable with a different (non-default) label fails with a schema-conflict
error.  But when the variable is a column of the previous clause,
`transform_cypher_node` returns the `colNameToVar` reference before the
conflict check is ever reached: `MATCH (x) WITH x MATCH (x:Person) ...`
compiles the second `(x:Person)` to the prior column, ignoring the
conflicting label, instead of raising the error. -/
theorem claim_C4_counterexample :
    transform_cypher_node stPrevBound ⟨some "x", some "Person", none⟩ true =
      .ok (some (.varRef "x"), stPrevBound) ∧
    transform_cypher_node stPrevBound ⟨some "x", some "Person", none⟩ true ≠
      .error (.featureNotSupported "variable x already exists") := by
  constructor
  · rfl
  · intro h
    exact Except.noConfusion
      ((rfl :
        transform_cypher_node stPrevBound ⟨some "x", some "Person", none⟩ true
          = .ok (some (.varRef "x"), stPrevBound)).symm.trans h)

/-- C4 (amended).  For a MATCH pattern element whose variable name is bound
in the current target list but is not a column of the previous clause
(`colNameToVar` fails): re-referencing it with a different entity kind, a
non-default label, or property constraints fails with the schema-conflict
error (`variable ... already exists`), while an identical bare re-reference
succeeds, returns the previously bound column's expression, and leaves the
state — in particular the range table and join list — unchanged.  (When the
name resolves as a previous-clause column, it is returned as-is with no
conflict check; see the counterexample.) -/
theorem claim_C4_bound_variable_rereference
    (st st2 : PState) (node : CypherNodeP) (rel : CypherRelP)
    (n m lbl lbl2 : String) (te te2 : MTarget) (ent ent2 : REntity)
    (hname : node.name = some n)
    (hscope : colNameToVar st n = none)
    (hte : findTarget st.targetList n = some te)
    (hent : find_variable st.entities n = some ent)
    (hlbl : validate_node_label st node = .ok lbl)
    (hname2 : rel.name = some m)
    (hvarlen : rel.varlen = false)
    (hscope2 : colNameToVar st2 m = none)
    (hte2 : findTarget st2.targetList m = some te2)
    (hent2 : find_variable st2.entities m = some ent2)
    (hlbl2 : validate_edge_label st2 rel = .ok lbl2) :
    ((ent.kind ≠ EntKind.vertex ∨ lbl ≠ AG_DEFAULT_LABEL_VERTEX ∨
        node.props.isSome) →
      transform_cypher_node st node true =
        .error (.featureNotSupported ("variable " ++ n ++ " already exists"))) ∧
    (ent.kind = EntKind.vertex → lbl = AG_DEFAULT_LABEL_VERTEX →
      node.props = none →
      transform_cypher_node st node true = .ok (some te.expr, st)) ∧
    ((ent2.kind ≠ EntKind.edge ∨ lbl2 ≠ AG_DEFAULT_LABEL_EDGE ∨
        rel.props.isSome) →
      transform_cypher_edge st2 rel =
        .error (.featureNotSupported ("variable " ++ m ++ " already exists"))) ∧
    (ent2.kind = EntKind.edge → lbl2 = AG_DEFAULT_LABEL_EDGE →
      rel.props = none →
      transform_cypher_edge st2 rel = .ok (te2.expr, st2)) := by
  refine ⟨?_, ?_, ?_, ?_⟩
  · intro hconf
    simp only [transform_cypher_node, hlbl, hname, hscope, hte, hent,
      not_true, ite_false, Bool.not_true]
    rw [if_pos hconf]
  · intro h1 h2 h3
    simp only [transform_cypher_node, hlbl, hname, hscope, hte, hent,
      not_true, ite_false, Bool.not_true]
    rw [if_neg (by simp [h1, h2, h3])]
  · intro hconf
    simp only [transform_cypher_edge, hvarlen, hlbl2, hname2, hscope2, hte2,
      hent2, Bool.false_eq_true, ite_false]
    rw [if_pos hconf]
  · intro h1 h2 h3
    simp only [transform_cypher_edge, hvarlen, hlbl2, hname2, hscope2, hte2,
      hent2, Bool.false_eq_true, ite_false]
    rw [if_neg (by simp [h1, h2, h3])]

/-- A parser state whose target list and registry hold a vertex variable
`x` declared in the current clause (not a previous-clause column). -/
def stCurBoundV : PState :=
  { targetList := [⟨some "x", 1, .vertexE "x" AG_DEFAULT_LABEL_VERTEX⟩]
    rtable := ["x"]
    entities := [⟨.vertex, some "x", true⟩]
    scope := []
    catalog := []
    nextResno := 2
    nextAlias := 0
    inWhere := false }

/-- Like `stCurBoundV` but holding an edge variable `y`. -/
def stCurBoundE : PState :=
  { targetList := [⟨some "y", 1, .edgeE "y" AG_DEFAULT_LABEL_EDGE⟩]
    rtable := ["y"]
    entities := [⟨.edge, some "y", true⟩]
    scope := []
    catalog := []
    nextResno := 2
    nextAlias := 0
    inWhere := false }

theorem claim_C4_witness :
    transform_cypher_node stCurBoundV ⟨some "x", none, none⟩ true =
      .ok (some (.vertexE "x" AG_DEFAULT_LABEL_VERTEX), stCurBoundV) ∧
    transform_cypher_edge stCurBoundE ⟨some "y", none, none, .right, false⟩ =
      .ok (.edgeE "y" AG_DEFAULT_LABEL_EDGE, stCurBoundE) := by
  have h := claim_C4_bound_variable_rereference stCurBoundV stCurBoundE
    ⟨some "x", none, none⟩ ⟨some "y", none, none, .right, false⟩
    "x" "y" AG_DEFAULT_LABEL_VERTEX AG_DEFAULT_LABEL_EDGE
    ⟨some "x", 1, .vertexE "x" AG_DEFAULT_LABEL_VERTEX⟩
    ⟨some "y", 1, .edgeE "y" AG_DEFAULT_LABEL_EDGE⟩
    ⟨.vertex, some "x", true⟩ ⟨.edge, some "y", true⟩
    rfl rfl rfl rfl rfl rfl rfl rfl rfl rfl rfl
  exact ⟨h.2.1 rfl rfl rfl, h.2.2.2 rfl rfl rfl⟩

/-- `get_target_entry_resno`: the resno of the first target entry with the
given resname (or `-1`), together with the updated target list — the C
function wraps the matched entry's expression in `agtype_volatile_wrapper`
in place. -/
def get_target_entry_resno : List MTarget → String → Int × List MTarget
  | [], _ => (-1, [])
  | te :: rest, name =>
    if te.resname = some name then
      ((te.resno : Int), { te with expr := .volatileW te.expr } :: rest)
    else
      let r := get_target_entry_resno rest name
      (r.1, te :: r.2)

/-- `placeholder_target_entry`: a deferred (null, volatile-wrapped) output
column for a CREATE-phase variable, resolved during execution. -/
def placeholder_target_entry (st : PState) (name : String) :
    MTarget × PState :=
  (⟨some name, st.nextResno, .volatileW .nullC⟩,
   { st with nextResno := st.nextResno + 1 })

/-- `variable_exists`: scan the previous clause's subquery RTE (alias `_`)
for a column of the given name. -/
def variable_exists (st : PState) (name : Option String) : Bool :=
  match name with
  | none => false
  | some n => st.scope.contains n

/-- `cypher_create_properties`: a `cypher_param` property map is rejected;
an explicit map is compiled by the expression sub-compiler; a missing map
falls back to the label relation's column default.  The result is wrapped
in `agtype_volatile_wrapper`. -/
def cypher_create_properties (props : Option CProp) (label : String)
    (clauseKind : String) : Except AgeErr MExpr :=
  match props with
  | some .param =>
    .error (.featureNotSupported
      ("properties in a " ++ clauseKind ++
        " clause as a parameter is not supported"))
  | some .mapLit => .ok (.volatileW .propMapE)
  | none => .ok (.volatileW (.columnDefault label .properties))

/-- A `cypher_target_node` of the CREATE mutation plan: entity kind, the
`CYPHER_TARGET_NODE_FLAG_INSERT` / `_IS_VAR` / `_IN_PATH_VAR` /
`EXISTING_VARAIBLE_DECLARED_SAME_CLAUSE` flags, label name
(`rel->label_name`; unset for existing nodes), variable name, the tuple
position of the variable's output column, the property column attribute
number, the identity-default expression and (edges) the direction. -/
structure TargetNode where
  kind : LabelKind
  insertFlag : Bool
  isVarFlag : Bool
  inPathFlag : Bool
  sameClauseFlag : Bool
  labelName : Option String
  variableName : Option String
  tuplePosition : Int
  propAttrNum : Option Int
  idExpr : Option MExpr
  dir : Option Dir

/-- `transform_create_cypher_existing_node`: a CREATE vertex whose variable
is already registered.  It gets no INSERT flag; carrying properties or a
label is an error; its tuple position is the resno of the previously bound
column (whose expression gets the volatile wrapper).  The caller guarantees
a variable name is present. -/
def transform_create_cypher_existing_node (st : PState)
    (declaredInCurrentClause : Bool) (node : CypherNodeP) :
    Except AgeErr (TargetNode × PState) :=
  if node.props.isSome then
    .error (.featureNotSupported
      "previously declared nodes in a create clause cannot have properties")
  else if node.label.isSome then
    .error (.featureNotSupported
      "previously declared variables cannot have a label")
  else
    let r := get_target_entry_resno st.targetList (node.name.getD "")
    .ok ({ kind := .vertex
           insertFlag := false
           isVarFlag := false
           inPathFlag := false
           sameClauseFlag := declaredInCurrentClause
           labelName := none
           variableName := node.name
           tuplePosition := r.1
           propAttrNum := none
           idExpr := none
           dir := none },
         { st with targetList := r.2 })

/-- `transform_create_cypher_new_node`: a CREATE vertex not previously
declared.  Its label storage is auto-created if missing, its id expression
is the relation's column default, its property expression gets its own
(hidden, default-aliased) output column, and a named vertex additionally
gets a deferred placeholder output column. -/
def transform_create_cypher_new_node (st : PState) (node : CypherNodeP) :
    Except AgeErr (TargetNode × PState) :=
  let labelName : String := node.label.getD ""
  let lbl : String := node.label.getD AG_DEFAULT_LABEL_VERTEX
  let st1 :=
    if (lookupLabel st.catalog lbl).isNone then
      { st with catalog := st.catalog ++ [(lbl, .vertex)] }
    else st
  let st2 := { st1 with rtable := st1.rtable ++ [lbl] }
  let idExpr := MExpr.columnDefault lbl .id
  let (aliasName, st3) := get_next_default_alias st2
  let resno := st3.nextResno
  let st4 := { st3 with nextResno := resno + 1 }
  match cypher_create_properties node.props lbl "CREATE" with
  | .error e => .error e
  | .ok props =>
    let st5 :=
      { st4 with targetList := st4.targetList ++ [⟨some aliasName, resno, props⟩] }
    match node.name with
    | some n =>
      let (pte, st6) := placeholder_target_entry st5 n
      .ok ({ kind := .vertex
             insertFlag := true
             isVarFlag := true
             inPathFlag := false
             sameClauseFlag := false
             labelName := some labelName
             variableName := some n
             tuplePosition := (pte.resno : Int)
             propAttrNum := some ((resno : Int) - 1)
             idExpr := some idExpr
             dir := none },
           { st6 with targetList := st6.targetList ++ [pte] })
    | none =>
      .ok ({ kind := .vertex
             insertFlag := true
             isVarFlag := false
             inPathFlag := false
             sameClauseFlag := false
             labelName := some labelName
             variableName := none
             tuplePosition := 0
             propAttrNum := some ((resno : Int) - 1)
             idExpr := some idExpr
             dir := none },
           st5)

/-- `transform_create_cypher_node`: dispatch between the existing-variable
and new-vertex cases; a registered non-vertex variable is a conflict. -/
def transform_create_cypher_node (st : PState) (node : CypherNodeP) :
    Except AgeErr (TargetNode × PState) :=
  match node.name with
  | some n =>
    (match find_variable st.entities n with
     | some ent =>
       if ent.kind ≠ EntKind.vertex then
         .error (.featureNotSupported ("variable " ++ n ++ " already exists"))
       else
         transform_create_cypher_existing_node st
           ent.declaredInCurrentClause node
     | none => transform_create_cypher_new_node st node)
  | none => transform_create_cypher_new_node st node

/-- `transform_create_cypher_edge`: CREATE edges are always new.  A name
clashing with a previous clause's column is an error; direction NONE and a
missing label are errors; label storage is auto-created; the property
expression gets its own hidden output column. -/
def transform_create_cypher_edge (st : PState) (edge : CypherRelP) :
    Except AgeErr (TargetNode × PState) :=
  let named := edge.name.isSome
  if variable_exists st edge.name then
    .error (.featureNotSupported
      ("variable " ++ edge.name.getD "" ++ " already exists"))
  else
    let (tuplePos, st1) : Int × PState :=
      match edge.name with
      | some n =>
        let (pte, st1) := placeholder_target_entry st n
        ((pte.resno : Int),
         { st1 with targetList := st1.targetList ++ [pte] })
      | none => (0, st)
    if edge.dir = Dir.none_ then
      .error (.featureNotSupported
        "only directed relationships are allowed in CREATE")
    else
      match edge.label with
      | none =>
        .error (.featureNotSupported
          "relationships must be specify a label in CREATE.")
      | some lbl =>
        let st2 :=
          if (lookupLabel st1.catalog lbl).isNone then
            { st1 with catalog := st1.catalog ++ [(lbl, .edge)] }
          else st1
        let st3 := { st2 with rtable := st2.rtable ++ [lbl] }
        let idExpr := MExpr.columnDefault lbl .id
        let (aliasName, st4) := get_next_default_alias st3
        let resno := st4.nextResno
        let st5 := { st4 with nextResno := resno + 1 }
        match cypher_create_properties edge.props lbl "CREATE" with
        | .error e => .error e
        | .ok props =>
          .ok ({ kind := .edge
                 insertFlag := true
                 isVarFlag := named
                 inPathFlag := false
                 sameClauseFlag := false
                 labelName := edge.label
                 variableName := edge.name
                 tuplePosition := tuplePos
                 propAttrNum := some ((resno : Int) - 1)
                 idExpr := some idExpr
                 dir := some edge.dir },
               { st5 with
                   targetList := st5.targetList ++ [⟨some aliasName, resno, props⟩] })

/-- A CREATE path element: a `cypher_node` or a `cypher_relationship`. -/
inductive CPathElem where
  | v (node : CypherNodeP)
  | e (rel : CypherRelP)

/-- A `cypher_path` of a CREATE pattern. -/
structure CPath where
  var_name : Option String
  elems : List CPathElem

/-- The element loop of `transform_cypher_create_path`: transform each
element, mark it as belonging to a named path when applicable, and register
the element's variable in `cpstate->entities`. -/
def transform_cypher_create_path_elems (inPath : Bool) :
    PState → List CPathElem → Except AgeErr (List TargetNode × PState)
  | st, [] => .ok ([], st)
  | st, .v node :: rest =>
    (match transform_create_cypher_node st node with
     | .error e => .error e
     | .ok (tn, st1) =>
       let tn := if inPath then { tn with inPathFlag := true } else tn
       let st2 :=
         { st1 with entities := st1.entities ++ [⟨.vertex, node.name, true⟩] }
       match transform_cypher_create_path_elems inPath st2 rest with
       | .error e => .error e
       | .ok (tns, st3) => .ok (tn :: tns, st3))
  | st, .e rel :: rest =>
    (match transform_create_cypher_edge st rel with
     | .error e => .error e
     | .ok (tn, st1) =>
       let tn := if inPath then { tn with inPathFlag := true } else tn
       let st2 :=
         { st1 with entities := st1.entities ++ [⟨.edge, rel.name, true⟩] }
       match transform_cypher_create_path_elems inPath st2 rest with
       | .error e => .error e
       | .ok (tns, st3) => .ok (tn :: tns, st3))

/-- `transform_cypher_create_path`: transform the elements, then — when the
path carries a variable — reject paths of fewer than 3 transformed elements
and otherwise append the deferred path-value placeholder column, recording
its attribute number. -/
def transform_cypher_create_path (st : PState) (p : CPath) :
    Except AgeErr ((List TargetNode × Int) × PState) :=
  match transform_cypher_create_path_elems p.var_name.isSome st p.elems with
  | .error e => .error e
  | .ok (tns, st1) =>
    match p.var_name with
    | some v =>
      if tns.length < 3 then
        .error (.featureNotSupported
          "paths consist of alternating vertices and edges.")
      else
        let (te, st2) := placeholder_target_entry st1 v
        .ok ((tns, (te.resno : Int)),
             { st2 with targetList := st2.targetList ++ [te] })
    | none => .ok ((tns, 0), st1)

/-- `transform_match_create_path_variable`: the path-variable output column
of a named MATCH path — rejected for fewer than 3 entities, otherwise the
`_agtype_build_path` call over every entity's resolved expression in
pattern order. -/
def transform_match_create_path_variable (varName : String) (resno : Nat)
    (entities : List TEntity) : Except AgeErr MTarget :=
  if entities.length < 3 then
    .error (.featureNotSupported
      "paths consist of alternating vertices and edges.")
  else
    .ok ⟨some varName, resno, .buildPath (entities.map (fun e => e.expr))⟩

/-- The (resname, resno) projection of a target entry: what name-based
column resolution and column order/position depend on. -/
def targetProj (t : MTarget) : Option String × Nat := (t.resname, t.resno)

/-- `expandRelAttrs`: the target list exposing each (non-junk) column of
the previous clause's subquery, in order, as a `Var` with consecutive
resnos starting at `r`. -/
def expandRelAttrs : List String → Nat → List MTarget
  | [], _ => []
  | c :: cs, r => ⟨some c, r, .varRef c⟩ :: expandRelAttrs cs (r + 1)

/-- Resno lookup over a (resname, resno) projection. -/
def lookupResno : List (Option String × Nat) → String → Int
  | [], _ => -1
  | p :: rest, name =>
    if p.1 = some name then (p.2 : Int) else lookupResno rest name

/-- Specification-side column position: the 1-based (starting at `r`)
position of the first occurrence of `name` in a column list, `-1` when
absent. -/
def colPosFrom (r : Nat) : List String → String → Int
  | [], _ => -1
  | c :: cs, name => if c = name then (r : Int) else colPosFrom (r + 1) cs name

theorem get_target_entry_resno_fst (tl : List MTarget) (name : String) :
    (get_target_entry_resno tl name).1 =
      lookupResno (tl.map targetProj) name := by
  induction tl with
  | nil => rfl
  | cons te rest ih =>
    simp only [get_target_entry_resno, List.map, lookupResno, targetProj]
    by_cases h : te.resname = some name
    · rw [if_pos h, if_pos h]
    · rw [if_neg h, if_neg h]
      exact ih

theorem get_target_entry_resno_proj (tl : List MTarget) (name : String) :
    (get_target_entry_resno tl name).2.map targetProj = tl.map targetProj := by
  induction tl with
  | nil => rfl
  | cons te rest ih =>
    simp only [get_target_entry_resno]
    by_cases h : te.resname = some name
    · rw [if_pos h]
      simp [targetProj]
    · rw [if_neg h]
      simp only [List.map, targetProj] at ih ⊢
      rw [ih]

theorem lookupResno_expand (cols : List String) (r : Nat) (name : String) :
    lookupResno ((expandRelAttrs cols r).map targetProj) name =
      colPosFrom r cols name := by
  induction cols generalizing r with
  | nil => rfl
  | cons c cs ih =>
    simp only [expandRelAttrs, List.map, lookupResno, colPosFrom, targetProj]
    by_cases h : c = name
    · rw [if_pos (by rw [h]), if_pos h]
    · rw [if_neg (by simpa using h), if_neg h]
      exact ih (r + 1)

theorem get_target_entry_resno_findTarget (tl : List MTarget)
    (name : String) :
    (get_target_entry_resno tl name).1 =
      (match findTarget tl name with
       | some te => (te.resno : Int)
       | none => -1) := by
  induction tl with
  | nil => rfl
  | cons te rest ih =>
    simp only [get_target_entry_resno, findTarget]
    by_cases h : te.resname = some name
    · rw [if_pos h, if_pos h]
    · rw [if_neg h, if_neg h]
      exact ih

theorem transform_cypher_create_path_elems_length (inPath : Bool)
    (elems : List CPathElem) :
    ∀ (st : PState) (tns : List TargetNode) (st1 : PState),
      transform_cypher_create_path_elems inPath st elems = .ok (tns, st1) →
      tns.length = elems.length := by
  induction elems with
  | nil =>
    intro st tns st1 h
    simp only [transform_cypher_create_path_elems, Except.ok.injEq,
      Prod.mk.injEq] at h
    rw [← h.1]
    rfl
  | cons el rest ih =>
    intro st tns st1 h
    cases el with
    | v node =>
      simp only [transform_cypher_create_path_elems] at h
      cases hn : transform_create_cypher_node st node with
      | error e => rw [hn] at h; exact absurd h (by simp)
      | ok p =>
        obtain ⟨tn, stx⟩ := p
        rw [hn] at h
        simp only at h
        cases hr : transform_cypher_create_path_elems inPath
            { stx with entities := stx.entities ++ [⟨.vertex, node.name, true⟩] }
            rest with
        | error e => rw [hr] at h; exact absurd h (by simp)
        | ok q =>
          obtain ⟨tns0, sty⟩ := q
          rw [hr] at h
          simp only [Except.ok.injEq, Prod.mk.injEq] at h
          rw [← h.1]
          simp [ih _ _ _ hr]
    | e rel =>
      simp only [transform_cypher_create_path_elems] at h
      cases hn : transform_create_cypher_edge st rel with
      | error e => rw [hn] at h; exact absurd h (by simp)
      | ok p =>
        obtain ⟨tn, stx⟩ := p
        rw [hn] at h
        simp only at h
        cases hr : transform_cypher_create_path_elems inPath
            { stx with entities := stx.entities ++ [⟨.edge, rel.name, true⟩] }
            rest with
        | error e => rw [hr] at h; exact absurd h (by simp)
        | ok q =>
          obtain ⟨tns0, sty⟩ := q
          rw [hr] at h
          simp only [Except.ok.injEq, Prod.mk.injEq] at h
          rw [← h.1]
          simp [ih _ _ _ hr]

/-- C5 counterexample.  The claim asserts that a named path shorter than 5
elements fails with a malformed-pattern error.  A named 3-element MATCH
path `p = (a)-[e]-(b)` (2 vertices, 1 edge) compiles successfully into the
path-variable column, so no error is raised at length 3 < 5. -/
theorem claim_C5_counterexample :
    ([(⟨.vertex, "a", "_ag_label_vertex", .right,
        some (.vertexE "a" "_ag_label_vertex")⟩ : TEntity),
      ⟨.edge, "e", "_ag_label_edge", .none_, some (.edgeE "e" "_ag_label_edge")⟩,
      ⟨.vertex, "b", "_ag_label_vertex", .right,
        some (.vertexE "b" "_ag_label_vertex")⟩].length = 3) ∧
    transform_match_create_path_variable "p" 2
      [⟨.vertex, "a", "_ag_label_vertex", .right,
        some (.vertexE "a" "_ag_label_vertex")⟩,
       ⟨.edge, "e", "_ag_label_edge", .none_, some (.edgeE "e" "_ag_label_edge")⟩,
       ⟨.vertex, "b", "_ag_label_vertex", .right,
        some (.vertexE "b" "_ag_label_vertex")⟩] =
      .ok ⟨some "p", 2,
        .buildPath
          [some (.vertexE "a" "_ag_label_vertex"),
           some (.edgeE "e" "_ag_label_edge"),
           some (.vertexE "b" "_ag_label_vertex")]⟩ :=
  ⟨rfl, rfl⟩

/-- C5 (amended).  A named path needs at least 3 elements (2 vertices and
1 edge), in both MATCH and CREATE.  In MATCH, a named path with 0 edges is
rejected with the malformed-pattern error and a named path with at least 1
edge gets the `_agtype_build_path` output column over every entity's
expression.  In CREATE, after the elements transform successfully (one
target node per element), a path variable is rejected exactly when there
are fewer than 3 target nodes, and otherwise the deferred path placeholder
column is appended and its attribute number recorded. -/
theorem claim_C5_named_path_minimum_three
    (v : String) (r : Nat) (v0 : VSpec) (rest : List (ESpec × VSpec))
    (st : PState) (p : CPath) (pv : String)
    (tns : List TargetNode) (st1 : PState)
    (hpv : p.var_name = some pv)
    (hfold : transform_cypher_create_path_elems true st p.elems =
      .ok (tns, st1)) :
    (rest = [] →
      transform_match_create_path_variable v r (pathEntities v0 rest) =
        .error (.featureNotSupported
          "paths consist of alternating vertices and edges.")) ∧
    (rest ≠ [] →
      transform_match_create_path_variable v r (pathEntities v0 rest) =
        .ok ⟨some v, r,
          .buildPath ((pathEntities v0 rest).map (fun e => e.expr))⟩) ∧
    (tns.length < 3 →
      transform_cypher_create_path st p =
        .error (.featureNotSupported
          "paths consist of alternating vertices and edges.")) ∧
    (3 ≤ tns.length →
      transform_cypher_create_path st p =
        .ok ((tns, (st1.nextResno : Int)),
          { st1 with
              nextResno := st1.nextResno + 1
              targetList :=
                st1.targetList ++ [⟨some pv, st1.nextResno, .volatileW .nullC⟩] })) ∧
    tns.length = p.elems.length := by
  have hfold' : transform_cypher_create_path_elems p.var_name.isSome st
      p.elems = .ok (tns, st1) := by
    rw [hpv]
    exact hfold
  refine ⟨?_, ?_, ?_, ?_, ?_⟩
  · intro h
    subst h
    rfl
  · intro h
    have hlen : (pathEntities v0 rest).length = 2 * rest.length + 1 := by
      simp [pathEntities, pathTailEntities_length]
    have hpos : 0 < rest.length := List.length_pos.mpr h
    unfold transform_match_create_path_variable
    rw [if_neg (by omega)]
  · intro h
    unfold transform_cypher_create_path
    rw [hfold']
    simp only [hpv]
    rw [if_pos h]
  · intro h
    unfold transform_cypher_create_path
    rw [hfold']
    simp only [hpv]
    rw [if_neg (by omega)]
    rfl
  · exact transform_cypher_create_path_elems_length true p.elems st tns st1
      hfold

/-- An empty parser state (first clause, empty catalog). -/
def stEmpty : PState :=
  { targetList := []
    rtable := []
    entities := []
    scope := []
    catalog := []
    nextResno := 1
    nextAlias := 0
    inWhere := false }

/-- The target node produced for the unbound unlabelled vertex `(a)` at the
head of a CREATE path in `stEmpty`. -/
def tnNewA : TargetNode :=
  { kind := .vertex
    insertFlag := true
    isVarFlag := true
    inPathFlag := true
    sameClauseFlag := false
    labelName := some ""
    variableName := some "a"
    tuplePosition := 2
    propAttrNum := some 0
    idExpr := some (.columnDefault AG_DEFAULT_LABEL_VERTEX .id)
    dir := none }

/-- The parser state after transforming the single vertex `(a)` of a CREATE
path in `stEmpty`. -/
def stAfterA : PState :=
  { targetList :=
      [⟨some (AGE_DEFAULT_ALIAS_BASE ++ "0"), 1,
        .volatileW (.columnDefault AG_DEFAULT_LABEL_VERTEX .properties)⟩,
       ⟨some "a", 2, .volatileW .nullC⟩]
    rtable := [AG_DEFAULT_LABEL_VERTEX]
    entities := [⟨.vertex, some "a", true⟩]
    scope := []
    catalog := [(AG_DEFAULT_LABEL_VERTEX, .vertex)]
    nextResno := 3
    nextAlias := 1
    inWhere := false }

theorem claim_C5_witness :
    transform_match_create_path_variable "p" 7
      (pathEntities
        ⟨"a", "_ag_label_vertex", some (.vertexE "a" "_ag_label_vertex")⟩
        [(⟨"e", "_ag_label_edge", .right, some (.edgeE "e" "_ag_label_edge")⟩,
          ⟨"b", "_ag_label_vertex", some (.vertexE "b" "_ag_label_vertex")⟩)]) =
      .ok ⟨some "p", 7,
        .buildPath
          ((pathEntities
            ⟨"a", "_ag_label_vertex", some (.vertexE "a" "_ag_label_vertex")⟩
            [(⟨"e", "_ag_label_edge", .right, some (.edgeE "e" "_ag_label_edge")⟩,
              ⟨"b", "_ag_label_vertex", some (.vertexE "b" "_ag_label_vertex")⟩)]).map
            (fun e => e.expr))⟩ ∧
    transform_cypher_create_path stEmpty
      ⟨some "p", [.v ⟨some "a", none, none⟩]⟩ =
      .error (.featureNotSupported
        "paths consist of alternating vertices and edges.") := by
  have h := claim_C5_named_path_minimum_three "p" 7
    ⟨"a", "_ag_label_vertex", some (.vertexE "a" "_ag_label_vertex")⟩
    [(⟨"e", "_ag_label_edge", .right, some (.edgeE "e" "_ag_label_edge")⟩,
      ⟨"b", "_ag_label_vertex", some (.vertexE "b" "_ag_label_vertex")⟩)]
    stEmpty ⟨some "p", [.v ⟨some "a", none, none⟩]⟩ "p"
    [tnNewA] stAfterA rfl rfl
  exact ⟨h.2.1 (by simp), h.2.2.1 (by decide)⟩

/-- C8.  A CREATE vertex whose variable is already registered yields an
"existing" target node: no INSERT flag (it is never re-inserted), its tuple
position referencing the previously bound output column's resno; carrying
properties or a label is an error. -/
theorem claim_C8_existing_vertex_not_reinserted
    (st : PState) (node : CypherNodeP) (n : String) (ent : REntity)
    (te : MTarget)
    (hname : node.name = some n)
    (hent : find_variable st.entities n = some ent)
    (hkind : ent.kind = EntKind.vertex)
    (hte : findTarget st.targetList n = some te) :
    (node.props.isSome →
      transform_create_cypher_node st node =
        .error (.featureNotSupported
          "previously declared nodes in a create clause cannot have properties")) ∧
    (node.props = none → node.label.isSome →
      transform_create_cypher_node st node =
        .error (.featureNotSupported
          "previously declared variables cannot have a label")) ∧
    (node.props = none → node.label = none →
      transform_create_cypher_node st node =
        .ok ({ kind := .vertex
               insertFlag := false
               isVarFlag := false
               inPathFlag := false
               sameClauseFlag := ent.declaredInCurrentClause
               labelName := none
               variableName := some n
               tuplePosition := (get_target_entry_resno st.targetList n).1
               propAttrNum := none
               idExpr := none
               dir := none },
             { st with targetList := (get_target_entry_resno st.targetList n).2 })) ∧
    (get_target_entry_resno st.targetList n).1 = (te.resno : Int) := by
  have hdispatch : transform_create_cypher_node st node =
      transform_create_cypher_existing_node st ent.declaredInCurrentClause
        node := by
    simp only [transform_create_cypher_node, hname, hent]
    rw [if_neg (by simp [hkind])]
  refine ⟨?_, ?_, ?_, ?_⟩
  · intro h
    rw [hdispatch]
    unfold transform_create_cypher_existing_node
    rw [if_pos h]
  · intro h1 h2
    rw [hdispatch]
    unfold transform_create_cypher_existing_node
    rw [if_neg (by simp [h1]), if_pos h2]
  · intro h1 h2
    rw [hdispatch]
    unfold transform_create_cypher_existing_node
    rw [if_neg (by simp [h1]), if_neg (by simp [h2]), hname]
    rfl
  · rw [get_target_entry_resno_findTarget, hte]

theorem claim_C8_witness :
    transform_create_cypher_node
      { targetList := [⟨some "a", 1, .varRef "a"⟩]
        rtable := ["_"]
        entities := [⟨.vertex, some "a", false⟩]
        scope := ["a"]
        catalog := []
        nextResno := 2
        nextAlias := 0
        inWhere := false }
      ⟨some "a", none, none⟩ =
      .ok ({ kind := .vertex
             insertFlag := false
             isVarFlag := false
             inPathFlag := false
             sameClauseFlag := false
             labelName := none
             variableName := some "a"
             tuplePosition := 1
             propAttrNum := none
             idExpr := none
             dir := none },
           { targetList := [⟨some "a", 1, .volatileW (.varRef "a")⟩]
             rtable := ["_"]
             entities := [⟨.vertex, some "a", false⟩]
             scope := ["a"]
             catalog := []
             nextResno := 2
             nextAlias := 0
             inWhere := false }) := by
  have h := claim_C8_existing_vertex_not_reinserted
    { targetList := [⟨some "a", 1, .varRef "a"⟩]
      rtable := ["_"]
      entities := [⟨.vertex, some "a", false⟩]
      scope := ["a"]
      catalog := []
      nextResno := 2
      nextAlias := 0
      inWhere := false }
    ⟨some "a", none, none⟩ "a" ⟨.vertex, some "a", false⟩
    ⟨some "a", 1, .varRef "a"⟩ rfl rfl rfl rfl
  exact h.2.2.1 rfl rfl

/-- Input scalar expressions appearing in SKIP/LIMIT and SET right-hand
sides: literals, references to a column (variable) of the current relation,
and arithmetic over sub-expressions. -/
inductive QExpr where
  | lit (n : Int)
  | colRef (name : String)
  | add (a b : QExpr)

/-- Modelled from the spec: the scalar-expression sub-compiler
(`transform_cypher_expr` of cypher_expr.c, which is not under src/)
"compile(expression, context-kind) -> scalar-expression": literals become
constants, a column reference resolves against the visible columns of the
current relation into a `Var` (of level 0), an unknown name is fatal, and
operators compile their operands. -/
def transform_cypher_expr_model (scope : List String) :
    QExpr → Except AgeErr MExpr
  | .lit n => .ok (.litInt n)
  | .colRef s =>
    if s ∈ scope then .ok (.varRef s)
    else .error (.invalidColumnRef ("could not find rte for " ++ s))
  | .add a b =>
    match transform_cypher_expr_model scope a with
    | .error e => .error e
    | .ok qa =>
      match transform_cypher_expr_model scope b with
      | .error e => .error e
      | .ok qb => .ok (.addE qa qb)

mutual

/-- Modelled from the spec: PostgreSQL's `contain_vars_of_level(qual, 0)`
free-variable scan (not under src/) — whether a compiled expression
references any column of the current query level (a `Var`, or a
vertex/edge construction expression, which is built over the relation's
columns). -/
def contain_vars_of_level0 : MExpr → Bool
  | .varRef _ => true
  | .vertexE _ _ => true
  | .edgeE _ _ => true
  | .volatileW e => contain_vars_of_level0 e
  | .nullC => false
  | .buildPath args => contain_vars_list args
  | .columnDefault _ _ => false
  | .planFn _ => false
  | .propMapE => false
  | .litInt _ => false
  | .addE a b => contain_vars_of_level0 a || contain_vars_of_level0 b
  | .coerceInt8 e => contain_vars_of_level0 e

/-- Free-variable scan over `_agtype_build_path` argument lists. -/
def contain_vars_list : List (Option MExpr) → Bool
  | [] => false
  | none :: rest => contain_vars_list rest
  | some e :: rest => contain_vars_of_level0 e || contain_vars_list rest

end

/-- `transform_cypher_limit`: a missing SKIP/LIMIT yields no expression;
otherwise the expression is compiled, coerced to int8, and rejected when it
contains any variable of the current query level. -/
def transform_cypher_limit (scope : List String) (node : Option QExpr)
    (constructName : String) : Except AgeErr (Option MExpr) :=
  match node with
  | none => .ok none
  | some e =>
    match transform_cypher_expr_model scope e with
    | .error err => .error err
    | .ok q =>
      let q := MExpr.coerceInt8 q
      if contain_vars_of_level0 q then
        .error (.invalidColumnRef
          ("argument of " ++ constructName ++ " must not contain variables"))
      else .ok (some q)

/-- Whether an input expression references a column of the current
relation. -/
def QExpr.refsColumn (scope : List String) : QExpr → Bool
  | .lit _ => false
  | .colRef s => scope.contains s
  | .add a b => QExpr.refsColumn scope a || QExpr.refsColumn scope b

/-- Whether an input expression is closed (no column references at all:
literals and arithmetic over literals). -/
def QExpr.closedQ : QExpr → Bool
  | .lit _ => true
  | .colRef _ => false
  | .add a b => QExpr.closedQ a && QExpr.closedQ b

/-- Parse nodes inspected by the DELETE/SET/REMOVE item-list transforms:
`ColumnRef` (fields are name strings), `A_Indirection`, `String` values,
and any other node kind. -/
inductive PNode where
  | columnRef (fields : List String)
  | indirection (arg : PNode) (inds : List PNode)
  | strNode (s : String)
  | otherNode

/-- A `cypher_set_item`: the `+=` flag, the property reference
(`set_item->prop`) and the right-hand-side expression. -/
structure CypherSetItem where
  isAdd : Bool
  prop : PNode
  rhs : QExpr

/-- A `cypher_update_item` instruction: variable name, its resolved output
column position, the property name, the remove flag, and (SET only) the new
value's output column position. -/
structure UpdateItem where
  varName : String
  entityPosition : Int
  propName : String
  removeItem : Bool
  propPosition : Option Nat
deriving DecidableEq, Repr

/-- A `cypher_delete_item`: variable name and resolved column position. -/
structure CypherDeleteItem where
  varName : String
  entityPosition : Int
deriving DecidableEq, Repr

/-- Modelled from the spec (the `AGE_VARNAME_*` prefix macro lives in a
header that is not under src/): the prefix of the hidden per-clause output
column names. -/
def AGE_DEFAULT_VARNAME_BASE : String := "_age_default_varname_"

/-- `AGE_VARNAME_DELETE_CLAUSE`. -/
def AGE_VARNAME_DELETE_CLAUSE : String :=
  AGE_DEFAULT_VARNAME_BASE ++ "delete_clause"

/-- `AGE_VARNAME_SET_CLAUSE`. -/
def AGE_VARNAME_SET_CLAUSE : String :=
  AGE_DEFAULT_VARNAME_BASE ++ "set_clause"

/-- `transform_cypher_delete_item_list`: each DELETE item must be a
single-field ColumnRef naming a column of the (already expanded) target
list; its resolved resno is recorded, and the matched target entry's
expression receives the volatile wrapper. -/
def transform_cypher_delete_item_list :
    List MTarget → List PNode →
    Except AgeErr (List CypherDeleteItem × List MTarget)
  | tl, [] => .ok ([], tl)
  | tl, expr :: rest =>
    match expr with
    | .columnRef [v] =>
      let r := get_target_entry_resno tl v
      if r.1 = -1 then
        .error (.invalidColumnRef
          ("undefined reference to variable " ++ v ++ " in DELETE clause"))
      else
        match transform_cypher_delete_item_list r.2 rest with
        | .error e => .error e
        | .ok (items, tl') => .ok (⟨v, r.1⟩ :: items, tl')
    | _ => .error (.internalErr "unexpected Node for cypher_clause")

/-- The compiled output of a DELETE clause: its target list (the expanded
predecessor columns plus the hidden serialized-plan column), the delete
items, the detach flag and the terminal flag. -/
structure DeleteInfo where
  targetList : List MTarget
  items : List CypherDeleteItem
  detach : Bool
  terminal : Bool

/-- `transform_cypher_delete`: DELETE needs a predecessor clause; its
columns are expanded into the target list, every item is resolved against
them, and the serialized `_cypher_delete_clause` plan call is appended as
the last (hidden) column. -/
def transform_cypher_delete (prev : Option (List String)) (hasNext : Bool)
    (exprs : List PNode) (detach : Bool) : Except AgeErr DeleteInfo :=
  match prev with
  | none =>
    .error (.featureNotSupported
      "DELETE cannot be the first clause in a Cypher query")
  | some cols =>
    let tl := expandRelAttrs cols 1
    match transform_cypher_delete_item_list tl exprs with
    | .error e => .error e
    | .ok (items, tl') =>
      .ok { targetList :=
              tl' ++ [⟨some AGE_VARNAME_DELETE_CLAUSE, cols.length + 1,
                       .planFn "_cypher_delete_clause"⟩]
            items := items
            detach := detach
            terminal := !hasNext }

/-- `transform_cypher_remove_item_list`: each REMOVE item must have the
exact shape `variable.property_name`; the variable is resolved against the
target list (fatal if unknown), and the instruction records the remove
flag with no value column. -/
def transform_cypher_remove_item_list :
    List MTarget → List CypherSetItem →
    Except AgeErr (List UpdateItem × List MTarget)
  | tl, [] => .ok ([], tl)
  | tl, item :: rest =>
    if item.isAdd then
      .error (.featureNotSupported
        "REMOVE clause does not support adding propereties from maps")
    else
      match item.prop with
      | .indirection (.columnRef (v :: _)) inds =>
        let r := get_target_entry_resno tl v
        if r.1 = -1 then
          .error (.invalidColumnRef
            ("undefined reference to variable " ++ v ++ " in REMOVE clause"))
        else
          (match inds with
           | [.strNode p] =>
             match transform_cypher_remove_item_list r.2 rest with
             | .error e => .error e
             | .ok (items, tl') => .ok (⟨v, r.1, p, true, none⟩ :: items, tl')
           | [_] => .error (.invalidColumnRef
               "REMOVE clause expects a property name")
           | _ => .error (.featureNotSupported
               "REMOVE clause must be in the format: REMOVE variable.property_name"))
      | _ =>
        .error (.featureNotSupported
          "REMOVE clause must be in the format: REMOVE variable.property_name")

/-- `transform_cypher_set_item_list`: each SET item `variable.property =
expr` resolves its variable against the target list, records the value
column position (`p_next_resno` before compiling the right-hand side), and
appends the compiled, volatile-wrapped value expression as a new unnamed
output column.  (The C code casts `set_item->prop` to `A_Indirection`
without checking; a non-indirection prop is undefined behaviour there and
an internal error here.) -/
def transform_cypher_set_item_list (scope : List String) :
    List MTarget → Nat → List CypherSetItem →
    Except AgeErr (List UpdateItem × List MTarget × Nat)
  | tl, resno, [] => .ok ([], tl, resno)
  | tl, resno, item :: rest =>
    if item.isAdd then
      .error (.featureNotSupported
        "SET clause does not yet support adding propereties from maps")
    else
      match item.prop with
      | .indirection (.columnRef (v :: _)) inds =>
        let r := get_target_entry_resno tl v
        if r.1 = -1 then
          .error (.invalidColumnRef
            ("undefined reference to variable " ++ v ++ " in SET clause"))
        else
          (match inds with
           | [.strNode p] =>
             (match transform_cypher_expr_model scope item.rhs with
              | .error e => .error e
              | .ok ve =>
                let tl2 := r.2 ++ [⟨none, resno, .volatileW ve⟩]
                match transform_cypher_set_item_list scope tl2 (resno + 1)
                    rest with
                | .error e => .error e
                | .ok (items, tl3, resno') =>
                  .ok (⟨v, r.1, p, false, some resno⟩ :: items, tl3, resno'))
           | [_] => .error (.invalidColumnRef
               "SET clause expects a property name")
           | _ => .error (.featureNotSupported
               "SET clause doesnt not support updating maps or lists in a property"))
      | _ => .error (.internalErr "SET item is not an A_Indirection")

/-- The compiled output of a SET/REMOVE clause. -/
structure UpdateInfo where
  targetList : List MTarget
  items : List UpdateItem
  clauseName : String
  terminal : Bool

/-- `transform_cypher_set` (handles both SET and REMOVE via `is_remove`):
requires a predecessor clause; exactly one item per clause is supported;
the item list is transformed and the serialized `_cypher_set_clause` plan
call appended as the last (hidden) column. -/
def transform_cypher_set (prev : Option (List String)) (hasNext : Bool)
    (isRemove : Bool) (items : List CypherSetItem) :
    Except AgeErr UpdateInfo :=
  let clauseName := if isRemove then "REMOVE" else "SET"
  match prev with
  | none =>
    .error (.featureNotSupported
      (clauseName ++ " cannot be the first clause in a Cypher query"))
  | some cols =>
    let tl := expandRelAttrs cols 1
    if items.length ≠ 1 then
      .error (.featureNotSupported
        (clauseName ++ " clause does not yet support updating more than one property"))
    else
      let r : Except AgeErr (List UpdateItem × List MTarget × Nat) :=
        if isRemove then
          match transform_cypher_remove_item_list tl items with
          | .error e => .error e
          | .ok (uitems, tl') => .ok (uitems, tl', cols.length + 1)
        else transform_cypher_set_item_list cols tl (cols.length + 1) items
      match r with
      | .error e => .error e
      | .ok (uitems, tl', resno') =>
        .ok { targetList :=
                tl' ++ [⟨some AGE_VARNAME_SET_CLAUSE, resno',
                         .planFn "_cypher_set_clause"⟩]
              items := uitems
              clauseName := clauseName
              terminal := !hasNext }

/-- The (resname, resno) projection of the expanded predecessor columns:
the i-th predecessor column keeps its name at position `r + i`. -/
def namesWithPos (r : Nat) : List String → List (Option String × Nat)
  | [] => []
  | c :: cs => (some c, r) :: namesWithPos (r + 1) cs

theorem expandRelAttrs_proj (cols : List String) :
    ∀ r, (expandRelAttrs cols r).map targetProj = namesWithPos r cols := by
  induction cols with
  | nil => intro r; rfl
  | cons c cs ih =>
    intro r
    simp only [expandRelAttrs, List.map, namesWithPos, targetProj]
    rw [ih (r + 1)]

theorem colPosFrom_eq_neg_one_iff (cols : List String) (v : String) :
    ∀ r, (colPosFrom r cols v = -1 ↔ v ∉ cols) := by
  induction cols with
  | nil => intro r; simp [colPosFrom]
  | cons c cs ih =>
    intro r
    simp only [colPosFrom, List.mem_cons]
    by_cases h : c = v
    · rw [if_pos h]
      constructor
      · intro hr; exfalso; omega
      · intro hm; exact absurd (Or.inl h.symm) hm
    · rw [if_neg h]
      rw [ih (r + 1)]
      constructor
      · intro hnm hm
        rcases hm with hm | hm
        · exact h hm.symm
        · exact hnm hm
      · intro hnm hm
        exact hnm (Or.inr hm)

theorem transform_cypher_delete_item_list_proj (exprs : List PNode) :
    ∀ (tl : List MTarget) (items : List CypherDeleteItem)
      (tl' : List MTarget),
      transform_cypher_delete_item_list tl exprs = .ok (items, tl') →
      tl'.map targetProj = tl.map targetProj := by
  induction exprs with
  | nil =>
    intro tl items tl' h
    simp only [transform_cypher_delete_item_list, Except.ok.injEq,
      Prod.mk.injEq] at h
    rw [← h.2]
  | cons e rest ih =>
    intro tl items tl' h
    cases e with
    | columnRef fields =>
      rcases fields with _ | ⟨v, _ | ⟨w, more⟩⟩
      · simp [transform_cypher_delete_item_list] at h
      · simp only [transform_cypher_delete_item_list] at h
        by_cases hr : (get_target_entry_resno tl v).1 = -1
        · rw [if_pos hr] at h
          exact absurd h (by simp)
        · rw [if_neg hr] at h
          cases hrec : transform_cypher_delete_item_list
              (get_target_entry_resno tl v).2 rest with
          | error e0 => rw [hrec] at h; exact absurd h (by simp)
          | ok q =>
            obtain ⟨items0, tl0⟩ := q
            rw [hrec] at h
            simp only [Except.ok.injEq, Prod.mk.injEq] at h
            rw [← h.2]
            rw [ih _ _ _ hrec, get_target_entry_resno_proj]
      · simp [transform_cypher_delete_item_list] at h
    | indirection a i => simp [transform_cypher_delete_item_list] at h
    | strNode s => simp [transform_cypher_delete_item_list] at h
    | otherNode => simp [transform_cypher_delete_item_list] at h

theorem transform_cypher_delete_item_list_resolves (cols : List String) :
    ∀ (vars : List String) (tl : List MTarget),
      tl.map targetProj = (expandRelAttrs cols 1).map targetProj →
      (∀ v ∈ vars, v ∈ cols) →
      ∃ tl', transform_cypher_delete_item_list tl
          (vars.map (fun v => PNode.columnRef [v])) =
        .ok (vars.map (fun v => ⟨v, colPosFrom 1 cols v⟩), tl') := by
  intro vars
  induction vars with
  | nil => intro tl _ _; exact ⟨tl, rfl⟩
  | cons v rest ih =>
    intro tl hproj hmem
    have hfst : (get_target_entry_resno tl v).1 = colPosFrom 1 cols v := by
      rw [get_target_entry_resno_fst, hproj, lookupResno_expand]
    have hne : (get_target_entry_resno tl v).1 ≠ -1 := by
      rw [hfst]
      intro hc
      exact (colPosFrom_eq_neg_one_iff cols v 1).mp hc
        (hmem v (List.mem_cons_self v rest))
    have hproj2 : (get_target_entry_resno tl v).2.map targetProj =
        (expandRelAttrs cols 1).map targetProj := by
      rw [get_target_entry_resno_proj, hproj]
    obtain ⟨tl', htl'⟩ := ih (get_target_entry_resno tl v).2 hproj2
      (fun w hw => hmem w (List.mem_cons_of_mem v hw))
    refine ⟨tl', ?_⟩
    simp only [List.map, transform_cypher_delete_item_list]
    rw [if_neg hne, htl', hfst]

/-- C6.  DELETE, SET or REMOVE as the first clause fails with an error that
names the clause kind and states it cannot be the first clause; with a
predecessor present, DELETE compiles and each of its variable references is
resolved to the referenced predecessor output column's 1-based position. -/
theorem claim_C6_first_clause_rejected_refs_resolved
    (hasNext detach : Bool) (exprs : List PNode)
    (sitems : List CypherSetItem) (cols vars : List String)
    (hvars : ∀ v ∈ vars, v ∈ cols) :
    transform_cypher_delete none hasNext exprs detach =
      .error (.featureNotSupported
        "DELETE cannot be the first clause in a Cypher query") ∧
    transform_cypher_set none hasNext false sitems =
      .error (.featureNotSupported
        "SET cannot be the first clause in a Cypher query") ∧
    transform_cypher_set none hasNext true sitems =
      .error (.featureNotSupported
        "REMOVE cannot be the first clause in a Cypher query") ∧
    (∃ info, transform_cypher_delete (some cols) hasNext
        (vars.map (fun v => PNode.columnRef [v])) detach = .ok info ∧
      info.items = vars.map (fun v => ⟨v, colPosFrom 1 cols v⟩)) := by
  refine ⟨rfl, rfl, rfl, ?_⟩
  obtain ⟨tl', htl'⟩ := transform_cypher_delete_item_list_resolves cols vars
    (expandRelAttrs cols 1) rfl hvars
  refine ⟨{ targetList :=
              tl' ++ [⟨some AGE_VARNAME_DELETE_CLAUSE, cols.length + 1,
                       .planFn "_cypher_delete_clause"⟩]
            items := vars.map (fun v => ⟨v, colPosFrom 1 cols v⟩)
            detach := detach
            terminal := !hasNext }, ?_, rfl⟩
  simp only [transform_cypher_delete]
  rw [htl']

theorem claim_C6_witness :
    transform_cypher_delete none false [] false =
      .error (.featureNotSupported
        "DELETE cannot be the first clause in a Cypher query") ∧
    (∃ info, transform_cypher_delete (some ["x", "y"]) false
        [PNode.columnRef ["y"]] false = .ok info ∧
      info.items = [⟨"y", 2⟩]) := by
  have h := claim_C6_first_clause_rejected_refs_resolved false false [] []
    ["x", "y"] ["y"] (by decide)
  exact ⟨h.1, h.2.2.2⟩

/-- The result of a well-formed single-item `REMOVE v.p` against
predecessor columns containing `v`. -/
theorem remove_single_item_result (cols : List String) (hasNext : Bool)
    (v p : String) (rhs : QExpr) (hv : v ∈ cols) :
    transform_cypher_set (some cols) hasNext true
        [⟨false, .indirection (.columnRef [v]) [.strNode p], rhs⟩] =
      .ok { targetList :=
              (get_target_entry_resno (expandRelAttrs cols 1) v).2 ++
                [⟨some AGE_VARNAME_SET_CLAUSE, cols.length + 1,
                  .planFn "_cypher_set_clause"⟩]
            items := [⟨v, (get_target_entry_resno (expandRelAttrs cols 1) v).1,
                       p, true, none⟩]
            clauseName := "REMOVE"
            terminal := !hasNext } := by
  have hne : (get_target_entry_resno (expandRelAttrs cols 1) v).1 ≠ -1 := by
    rw [get_target_entry_resno_fst, lookupResno_expand]
    intro hc
    exact (colPosFrom_eq_neg_one_iff cols v 1).mp hc hv
  simp only [transform_cypher_set, transform_cypher_remove_item_list]
  rw [if_neg (by simp)]
  rw [if_neg hne]
  rfl

/-- The result of a well-formed single-item `SET v.p = rhs` against
predecessor columns containing `v`, when the right-hand side compiles. -/
theorem set_single_item_result (cols : List String) (hasNext : Bool)
    (v p : String) (rhs : QExpr) (ve : MExpr) (hv : v ∈ cols)
    (hrhs : transform_cypher_expr_model cols rhs = .ok ve) :
    transform_cypher_set (some cols) hasNext false
        [⟨false, .indirection (.columnRef [v]) [.strNode p], rhs⟩] =
      .ok { targetList :=
              ((get_target_entry_resno (expandRelAttrs cols 1) v).2 ++
                [⟨none, cols.length + 1, .volatileW ve⟩]) ++
                [⟨some AGE_VARNAME_SET_CLAUSE, cols.length + 2,
                  .planFn "_cypher_set_clause"⟩]
            items := [⟨v, (get_target_entry_resno (expandRelAttrs cols 1) v).1,
                       p, false, some (cols.length + 1)⟩]
            clauseName := "SET"
            terminal := !hasNext } := by
  have hne : (get_target_entry_resno (expandRelAttrs cols 1) v).1 ≠ -1 := by
    rw [get_target_entry_resno_fst, lookupResno_expand]
    intro hc
    exact (colPosFrom_eq_neg_one_iff cols v 1).mp hc hv
  simp only [transform_cypher_set, transform_cypher_set_item_list]
  rw [if_neg (by simp)]
  rw [if_neg hne, hrhs]
  rfl

/-- C7.  A SET clause with more than one item fails with the
unsupported-feature error; a single-item `REMOVE v.p` succeeds, resolving
`v` by exact name match against the predecessor's output columns and
recording its resolved 1-based column position; an unresolved variable name
is fatal. -/
theorem claim_C7_single_item_set_remove_resolution
    (hasNext : Bool) (sitems : List CypherSetItem) (cols : List String)
    (v p : String) (rhs : QExpr) :
    (1 < sitems.length →
      transform_cypher_set (some cols) hasNext false sitems =
        .error (.featureNotSupported
          "SET clause does not yet support updating more than one property")) ∧
    (v ∈ cols →
      transform_cypher_set (some cols) hasNext true
          [⟨false, .indirection (.columnRef [v]) [.strNode p], rhs⟩] =
        .ok { targetList :=
                (get_target_entry_resno (expandRelAttrs cols 1) v).2 ++
                  [⟨some AGE_VARNAME_SET_CLAUSE, cols.length + 1,
                    .planFn "_cypher_set_clause"⟩]
              items := [⟨v,
                         (get_target_entry_resno (expandRelAttrs cols 1) v).1,
                         p, true, none⟩]
              clauseName := "REMOVE"
              terminal := !hasNext }) ∧
    (get_target_entry_resno (expandRelAttrs cols 1) v).1 =
      colPosFrom 1 cols v ∧
    (v ∉ cols →
      transform_cypher_set (some cols) hasNext true
          [⟨false, .indirection (.columnRef [v]) [.strNode p], rhs⟩] =
        .error (.invalidColumnRef
          ("undefined reference to variable " ++ v ++ " in REMOVE clause"))) := by
  refine ⟨?_, ?_, ?_, ?_⟩
  · intro h
    simp only [transform_cypher_set]
    rw [if_pos (by omega)]
    rfl
  · intro hv
    exact remove_single_item_result cols hasNext v p rhs hv
  · rw [get_target_entry_resno_fst, lookupResno_expand]
  · intro hnv
    have heq : (get_target_entry_resno (expandRelAttrs cols 1) v).1 = -1 := by
      rw [get_target_entry_resno_fst, lookupResno_expand]
      exact (colPosFrom_eq_neg_one_iff cols v 1).mpr hnv
    simp only [transform_cypher_set, transform_cypher_remove_item_list]
    rw [if_neg (by simp)]
    rw [if_pos heq]
    rfl

theorem claim_C7_witness :
    transform_cypher_set (some ["x"]) false false
        [⟨false, .indirection (.columnRef ["x"]) [.strNode "a"], .lit 1⟩,
         ⟨false, .indirection (.columnRef ["x"]) [.strNode "b"], .lit 2⟩] =
      .error (.featureNotSupported
        "SET clause does not yet support updating more than one property") ∧
    transform_cypher_set (some ["x"]) false true
        [⟨false, .indirection (.columnRef ["x"]) [.strNode "a"], .lit 1⟩] =
      .ok { targetList :=
              [⟨some "x", 1, .volatileW (.varRef "x")⟩,
               ⟨some AGE_VARNAME_SET_CLAUSE, 2, .planFn "_cypher_set_clause"⟩]
            items := [⟨"x", 1, "a", true, none⟩]
            clauseName := "REMOVE"
            terminal := true } ∧
    transform_cypher_set (some ["x"]) false true
        [⟨false, .indirection (.columnRef ["z"]) [.strNode "a"], .lit 1⟩] =
      .error (.invalidColumnRef
        "undefined reference to variable z in REMOVE clause") := by
  have h1 := claim_C7_single_item_set_remove_resolution false
    [⟨false, .indirection (.columnRef ["x"]) [.strNode "a"], .lit 1⟩,
     ⟨false, .indirection (.columnRef ["x"]) [.strNode "b"], .lit 2⟩]
    ["x"] "x" "a" (.lit 1)
  have h2 := claim_C7_single_item_set_remove_resolution false
    [] ["x"] "z" "a" (.lit 1)
  exact ⟨h1.1 (by decide), h1.2.1 (by decide), h2.2.2.2 (by decide)⟩

theorem transform_expr_model_error_shape (scope : List String) :
    ∀ (e : QExpr) (err : AgeErr),
      transform_cypher_expr_model scope e = .error err →
      ∃ msg, err = .invalidColumnRef msg := by
  intro e
  induction e with
  | lit n => intro err h; simp [transform_cypher_expr_model] at h
  | colRef s =>
    intro err h
    simp only [transform_cypher_expr_model] at h
    by_cases hs : s ∈ scope
    · rw [if_pos hs] at h; exact absurd h (by simp)
    · rw [if_neg hs] at h
      simp only [Except.error.injEq] at h
      exact ⟨_, h.symm⟩
  | add a b iha ihb =>
    intro err h
    simp only [transform_cypher_expr_model] at h
    cases ha : transform_cypher_expr_model scope a with
    | error ea =>
      rw [ha] at h
      simp only [Except.error.injEq] at h
      exact h ▸ iha ea ha
    | ok qa =>
      rw [ha] at h
      simp only at h
      cases hb : transform_cypher_expr_model scope b with
      | error eb =>
        rw [hb] at h
        simp only [Except.error.injEq] at h
        exact h ▸ ihb eb hb
      | ok qb => rw [hb] at h; exact absurd h (by simp)

theorem transform_expr_model_vars (scope : List String) :
    ∀ (e : QExpr) (q : MExpr),
      transform_cypher_expr_model scope e = .ok q →
      contain_vars_of_level0 q = QExpr.refsColumn scope e := by
  intro e
  induction e with
  | lit n =>
    intro q h
    simp only [transform_cypher_expr_model, Except.ok.injEq] at h
    rw [← h]
    rfl
  | colRef s =>
    intro q h
    simp only [transform_cypher_expr_model] at h
    by_cases hs : s ∈ scope
    · rw [if_pos hs] at h
      simp only [Except.ok.injEq] at h
      rw [← h]
      simp [contain_vars_of_level0, QExpr.refsColumn, hs]
    · rw [if_neg hs] at h
      exact absurd h (by simp)
  | add a b iha ihb =>
    intro q h
    simp only [transform_cypher_expr_model] at h
    cases ha : transform_cypher_expr_model scope a with
    | error ea => rw [ha] at h; exact absurd h (by simp)
    | ok qa =>
      rw [ha] at h
      simp only at h
      cases hb : transform_cypher_expr_model scope b with
      | error eb => rw [hb] at h; exact absurd h (by simp)
      | ok qb =>
        rw [hb] at h
        simp only [Except.ok.injEq] at h
        rw [← h]
        simp only [contain_vars_of_level0, QExpr.refsColumn]
        rw [iha qa ha, ihb qb hb]

theorem transform_expr_model_closed (scope : List String) :
    ∀ (e : QExpr), QExpr.closedQ e = true →
      ∃ q, transform_cypher_expr_model scope e = .ok q ∧
        contain_vars_of_level0 q = false := by
  intro e
  induction e with
  | lit n => intro _; exact ⟨.litInt n, rfl, rfl⟩
  | colRef s => intro h; simp [QExpr.closedQ] at h
  | add a b iha ihb =>
    intro h
    simp only [QExpr.closedQ, Bool.and_eq_true] at h
    obtain ⟨qa, hqa, hva⟩ := iha h.1
    obtain ⟨qb, hqb, hvb⟩ := ihb h.2
    refine ⟨.addE qa qb, ?_, ?_⟩
    · simp only [transform_cypher_expr_model, hqa, hqb]
    · simp [contain_vars_of_level0, hva, hvb]

/-- C9.  A SKIP or LIMIT expression that references any column (variable)
of the current relation fails with an invalid-column-reference error (either
from the free-variable scan or, if it also contains an unknown name, from
the expression sub-compiler); a closed expression — no column references,
e.g. a literal or arithmetic over literals — compiles successfully, coerced
to int8, into the offset/limit slot. -/
theorem claim_C9_limit_rejects_column_references (scope : List String)
    (e : QExpr) (cn : String) :
    (QExpr.refsColumn scope e = true →
      ∃ msg, transform_cypher_limit scope (some e) cn =
        .error (.invalidColumnRef msg)) ∧
    (QExpr.closedQ e = true →
      ∃ q, transform_cypher_limit scope (some e) cn =
        .ok (some (.coerceInt8 q))) := by
  constructor
  · intro h
    cases he : transform_cypher_expr_model scope e with
    | error err =>
      obtain ⟨msg, rfl⟩ := transform_expr_model_error_shape scope e err he
      exact ⟨msg, by simp [transform_cypher_limit, he]⟩
    | ok q =>
      have hv : contain_vars_of_level0 q = true := by
        rw [transform_expr_model_vars scope e q he, h]
      refine ⟨"argument of " ++ cn ++ " must not contain variables", ?_⟩
      simp only [transform_cypher_limit, he]
      rw [if_pos (show contain_vars_of_level0 (.coerceInt8 q) = true from by
        simpa [contain_vars_of_level0] using hv)]
  · intro h
    obtain ⟨q, hq, hnv⟩ := transform_expr_model_closed scope e h
    refine ⟨q, ?_⟩
    simp only [transform_cypher_limit, hq]
    rw [if_neg (show ¬ contain_vars_of_level0 (.coerceInt8 q) = true from by
      simp [contain_vars_of_level0, hnv])]

theorem claim_C9_witness :
    (∃ msg, transform_cypher_limit ["x"] (some (.colRef "x")) "LIMIT" =
      .error (.invalidColumnRef msg)) ∧
    (∃ q, transform_cypher_limit ["x"]
        (some (.add (.lit 1) (.lit 2))) "SKIP" =
      .ok (some (.coerceInt8 q))) := by
  have h1 := claim_C9_limit_rejects_column_references ["x"] (.colRef "x")
    "LIMIT"
  have h2 := claim_C9_limit_rejects_column_references ["x"]
    (.add (.lit 1) (.lit 2)) "SKIP"
  exact ⟨h1.1 (by decide), h2.2 (by decide)⟩

/-- The (resname, resno) projections of the `k` unnamed SET value columns
appended starting at resno `r`. -/
def valueColsProj (r : Nat) : Nat → List (Option String × Nat)
  | 0 => []
  | k + 1 => (none, r) :: valueColsProj (r + 1) k

theorem transform_cypher_remove_item_list_proj
    (items : List CypherSetItem) :
    ∀ (tl : List MTarget) (its : List UpdateItem) (tl' : List MTarget),
      transform_cypher_remove_item_list tl items = .ok (its, tl') →
      tl'.map targetProj = tl.map targetProj := by
  induction items with
  | nil =>
    intro tl its tl' h
    simp only [transform_cypher_remove_item_list, Except.ok.injEq,
      Prod.mk.injEq] at h
    rw [← h.2]
  | cons item rest ih =>
    intro tl its tl' h
    obtain ⟨isAdd, prop, rhs⟩ := item
    cases isAdd with
    | true => simp [transform_cypher_remove_item_list] at h
    | false =>
      rcases prop with fields | ⟨arg, inds⟩ | s | _
      · simp [transform_cypher_remove_item_list] at h
      · rcases arg with afields | ⟨a2, i3⟩ | s2 | _
        · rcases afields with _ | ⟨v, vrest⟩
          · simp [transform_cypher_remove_item_list] at h
          · rcases inds with _ | ⟨i1, _ | ⟨i2, irest⟩⟩
            · simp only [transform_cypher_remove_item_list,
                Bool.false_eq_true, if_false] at h
              by_cases hr : (get_target_entry_resno tl v).1 = -1
              · rw [if_pos hr] at h; exact absurd h (by simp)
              · rw [if_neg hr] at h; exact absurd h (by simp)
            · rcases i1 with f2 | ⟨a3, i4⟩ | s3 | _
              · simp only [transform_cypher_remove_item_list,
                  Bool.false_eq_true, if_false] at h
                by_cases hr : (get_target_entry_resno tl v).1 = -1
                · rw [if_pos hr] at h; exact absurd h (by simp)
                · rw [if_neg hr] at h; exact absurd h (by simp)
              · simp only [transform_cypher_remove_item_list,
                  Bool.false_eq_true, if_false] at h
                by_cases hr : (get_target_entry_resno tl v).1 = -1
                · rw [if_pos hr] at h; exact absurd h (by simp)
                · rw [if_neg hr] at h; exact absurd h (by simp)
              · simp only [transform_cypher_remove_item_list,
                  Bool.false_eq_true, if_false] at h
                by_cases hr : (get_target_entry_resno tl v).1 = -1
                · rw [if_pos hr] at h; exact absurd h (by simp)
                · rw [if_neg hr] at h
                  cases hrec : transform_cypher_remove_item_list
                      (get_target_entry_resno tl v).2 rest with
                  | error e0 => rw [hrec] at h; exact absurd h (by simp)
                  | ok q =>
                    obtain ⟨its0, tl0⟩ := q
                    rw [hrec] at h
                    simp only [Except.ok.injEq, Prod.mk.injEq] at h
                    rw [← h.2]
                    rw [ih _ _ _ hrec, get_target_entry_resno_proj]
              · simp only [transform_cypher_remove_item_list,
                  Bool.false_eq_true, if_false] at h
                by_cases hr : (get_target_entry_resno tl v).1 = -1
                · rw [if_pos hr] at h; exact absurd h (by simp)
                · rw [if_neg hr] at h; exact absurd h (by simp)
            · simp only [transform_cypher_remove_item_list,
                Bool.false_eq_true, if_false] at h
              by_cases hr : (get_target_entry_resno tl v).1 = -1
              · rw [if_pos hr] at h; exact absurd h (by simp)
              · rw [if_neg hr] at h; exact absurd h (by simp)
        · simp [transform_cypher_remove_item_list] at h
        · simp [transform_cypher_remove_item_list] at h
        · simp [transform_cypher_remove_item_list] at h
      · simp [transform_cypher_remove_item_list] at h
      · simp [transform_cypher_remove_item_list] at h

theorem transform_cypher_set_item_list_proj (scope : List String)
    (items : List CypherSetItem) :
    ∀ (tl : List MTarget) (r : Nat) (its : List UpdateItem)
      (tl' : List MTarget) (r' : Nat),
      transform_cypher_set_item_list scope tl r items = .ok (its, tl', r') →
      tl'.map targetProj =
        tl.map targetProj ++ valueColsProj r items.length ∧
      r' = r + items.length := by
  induction items with
  | nil =>
    intro tl r its tl' r' h
    simp only [transform_cypher_set_item_list, Except.ok.injEq,
      Prod.mk.injEq] at h
    refine ⟨?_, ?_⟩
    · rw [← h.2.1]
      simp [valueColsProj]
    · rw [← h.2.2]
      simp
  | cons item rest ih =>
    intro tl r its tl' r' h
    obtain ⟨isAdd, prop, rhs⟩ := item
    cases isAdd with
    | true => simp [transform_cypher_set_item_list] at h
    | false =>
      rcases prop with fields | ⟨arg, inds⟩ | s | _
      · simp [transform_cypher_set_item_list] at h
      · rcases arg with afields | ⟨a2, i3⟩ | s2 | _
        · rcases afields with _ | ⟨v, vrest⟩
          · simp [transform_cypher_set_item_list] at h
          · rcases inds with _ | ⟨i1, _ | ⟨i2, irest⟩⟩
            · simp only [transform_cypher_set_item_list,
                Bool.false_eq_true, if_false] at h
              by_cases hr : (get_target_entry_resno tl v).1 = -1
              · rw [if_pos hr] at h; exact absurd h (by simp)
              · rw [if_neg hr] at h; exact absurd h (by simp)
            · rcases i1 with f2 | ⟨a3, i4⟩ | s3 | _
              · simp only [transform_cypher_set_item_list,
                  Bool.false_eq_true, if_false] at h
                by_cases hr : (get_target_entry_resno tl v).1 = -1
                · rw [if_pos hr] at h; exact absurd h (by simp)
                · rw [if_neg hr] at h; exact absurd h (by simp)
              · simp only [transform_cypher_set_item_list,
                  Bool.false_eq_true, if_false] at h
                by_cases hr : (get_target_entry_resno tl v).1 = -1
                · rw [if_pos hr] at h; exact absurd h (by simp)
                · rw [if_neg hr] at h; exact absurd h (by simp)
              · simp only [transform_cypher_set_item_list,
                  Bool.false_eq_true, if_false] at h
                by_cases hr : (get_target_entry_resno tl v).1 = -1
                · rw [if_pos hr] at h; exact absurd h (by simp)
                · rw [if_neg hr] at h
                  cases hve : transform_cypher_expr_model scope rhs with
                  | error e0 => rw [hve] at h; exact absurd h (by simp)
                  | ok ve =>
                    rw [hve] at h
                    simp only at h
                    cases hrec : transform_cypher_set_item_list scope
                        ((get_target_entry_resno tl v).2 ++
                          [⟨none, r, .volatileW ve⟩]) (r + 1) rest with
                    | error e0 => rw [hrec] at h; exact absurd h (by simp)
                    | ok q =>
                      obtain ⟨its0, tl0, r0⟩ := q
                      rw [hrec] at h
                      simp only [Except.ok.injEq, Prod.mk.injEq] at h
                      obtain ⟨hproj, hr0⟩ := ih _ _ _ _ _ hrec
                      refine ⟨?_, ?_⟩
                      · rw [← h.2.1, hproj]
                        simp only [List.map_append,
                          get_target_entry_resno_proj]
                        simp [valueColsProj, targetProj, List.length_cons]
                      · rw [← h.2.2, hr0]
                        simp [List.length_cons]
                        omega
              · simp only [transform_cypher_set_item_list,
                  Bool.false_eq_true, if_false] at h
                by_cases hr : (get_target_entry_resno tl v).1 = -1
                · rw [if_pos hr] at h; exact absurd h (by simp)
                · rw [if_neg hr] at h; exact absurd h (by simp)
            · simp only [transform_cypher_set_item_list,
                Bool.false_eq_true, if_false] at h
              by_cases hr : (get_target_entry_resno tl v).1 = -1
              · rw [if_pos hr] at h; exact absurd h (by simp)
              · rw [if_neg hr] at h; exact absurd h (by simp)
        · simp [transform_cypher_set_item_list] at h
        · simp [transform_cypher_set_item_list] at h
        · simp [transform_cypher_set_item_list] at h
      · simp [transform_cypher_set_item_list] at h
      · simp [transform_cypher_set_item_list] at h

/-- C10.  For every DELETE, SET, or REMOVE clause that compiles
successfully, each predecessor output column is present in the compiled
clause's target list with the same name and the same position (the i-th
predecessor column at resno i), and the columns the clause itself
introduces — the unnamed SET value column and the hidden serialized-plan
column, which comes last — are only appended after them; no predecessor
column is removed, renamed, or reordered. -/
theorem claim_C10_predecessor_columns_preserved
    (cols : List String) (hasNext detach : Bool) (exprs : List PNode)
    (sitems ritems : List CypherSetItem)
    (infoD : DeleteInfo) (infoS infoR : UpdateInfo)
    (hD : transform_cypher_delete (some cols) hasNext exprs detach =
      .ok infoD)
    (hS : transform_cypher_set (some cols) hasNext false sitems = .ok infoS)
    (hR : transform_cypher_set (some cols) hasNext true ritems = .ok infoR) :
    infoD.targetList.map targetProj =
      namesWithPos 1 cols ++
        [(some AGE_VARNAME_DELETE_CLAUSE, cols.length + 1)] ∧
    infoS.targetList.map targetProj =
      namesWithPos 1 cols ++
        [(none, cols.length + 1),
         (some AGE_VARNAME_SET_CLAUSE, cols.length + 2)] ∧
    infoR.targetList.map targetProj =
      namesWithPos 1 cols ++
        [(some AGE_VARNAME_SET_CLAUSE, cols.length + 1)] := by
  refine ⟨?_, ?_, ?_⟩
  · simp only [transform_cypher_delete] at hD
    cases hil : transform_cypher_delete_item_list (expandRelAttrs cols 1)
        exprs with
    | error e0 => rw [hil] at hD; exact absurd hD (by simp)
    | ok pr =>
      obtain ⟨items0, tl'⟩ := pr
      rw [hil] at hD
      simp only [Except.ok.injEq] at hD
      rw [← hD]
      simp only [List.map_append]
      rw [transform_cypher_delete_item_list_proj _ _ _ _ hil,
        expandRelAttrs_proj]
      rfl
  · simp only [transform_cypher_set, Bool.false_eq_true, if_false] at hS
    by_cases hlen : sitems.length ≠ 1
    · rw [if_pos hlen] at hS; exact absurd hS (by simp)
    · rw [if_neg hlen] at hS
      push_neg at hlen
      cases hil : transform_cypher_set_item_list cols (expandRelAttrs cols 1)
          (cols.length + 1) sitems with
      | error e0 => rw [hil] at hS; exact absurd hS (by simp)
      | ok q =>
        obtain ⟨its0, tl0, r0⟩ := q
        rw [hil] at hS
        simp only [Except.ok.injEq] at hS
        obtain ⟨hproj, hr0⟩ := transform_cypher_set_item_list_proj cols
          sitems _ _ _ _ _ hil
        rw [← hS]
        simp only [List.map_append]
        rw [hproj, expandRelAttrs_proj, hlen, hr0, hlen]
        simp [valueColsProj, targetProj]
  · simp only [transform_cypher_set, eq_self_iff_true, if_true] at hR
    by_cases hlen : ritems.length ≠ 1
    · rw [if_pos hlen] at hR; exact absurd hR (by simp)
    · rw [if_neg hlen] at hR
      cases hil : transform_cypher_remove_item_list (expandRelAttrs cols 1)
          ritems with
      | error e0 => rw [hil] at hR; exact absurd hR (by simp)
      | ok q =>
        obtain ⟨its0, tl0⟩ := q
        rw [hil] at hR
        simp only [Except.ok.injEq] at hR
        rw [← hR]
        simp only [List.map_append]
        rw [transform_cypher_remove_item_list_proj _ _ _ _ hil,
          expandRelAttrs_proj]
        rfl

theorem claim_C10_witness :
    (∃ infoD, transform_cypher_delete (some ["x", "y"]) false
        [PNode.columnRef ["x"]] false = .ok infoD ∧
      infoD.targetList.map targetProj =
        [(some "x", 1), (some "y", 2),
         (some AGE_VARNAME_DELETE_CLAUSE, 3)]) ∧
    (∃ infoS, transform_cypher_set (some ["x", "y"]) false false
        [⟨false, .indirection (.columnRef ["x"]) [.strNode "a"], .lit 1⟩] =
        .ok infoS ∧
      infoS.targetList.map targetProj =
        [(some "x", 1), (some "y", 2), (none, 3),
         (some AGE_VARNAME_SET_CLAUSE, 4)]) ∧
    (∃ infoR, transform_cypher_set (some ["x", "y"]) false true
        [⟨false, .indirection (.columnRef ["y"]) [.strNode "a"], .lit 1⟩] =
        .ok infoR ∧
      infoR.targetList.map targetProj =
        [(some "x", 1), (some "y", 2),
         (some AGE_VARNAME_SET_CLAUSE, 3)]) := by
  have h := claim_C10_predecessor_columns_preserved ["x", "y"] false false
    [PNode.columnRef ["x"]]
    [⟨false, .indirection (.columnRef ["x"]) [.strNode "a"], .lit 1⟩]
    [⟨false, .indirection (.columnRef ["y"]) [.strNode "a"], .lit 1⟩]
    { targetList :=
        [⟨some "x", 1, .volatileW (.varRef "x")⟩, ⟨some "y", 2, .varRef "y"⟩,
         ⟨some AGE_VARNAME_DELETE_CLAUSE, 3, .planFn "_cypher_delete_clause"⟩]
      items := [⟨"x", 1⟩]
      detach := false
      terminal := true }
    { targetList :=
        [⟨some "x", 1, .volatileW (.varRef "x")⟩, ⟨some "y", 2, .varRef "y"⟩,
         ⟨none, 3, .volatileW (.litInt 1)⟩,
         ⟨some AGE_VARNAME_SET_CLAUSE, 4, .planFn "_cypher_set_clause"⟩]
      items := [⟨"x", 1, "a", false, some 3⟩]
      clauseName := "SET"
      terminal := true }
    { targetList :=
        [⟨some "x", 1, .varRef "x"⟩, ⟨some "y", 2, .volatileW (.varRef "y")⟩,
         ⟨some AGE_VARNAME_SET_CLAUSE, 3, .planFn "_cypher_set_clause"⟩]
      items := [⟨"y", 2, "a", true, none⟩]
      clauseName := "REMOVE"
      terminal := true }
    rfl rfl rfl
  exact ⟨⟨_, rfl, h.1⟩, ⟨_, rfl, h.2.1⟩, ⟨_, rfl, h.2.2⟩⟩

end Age
